import Mathlib

/-
Verification of the cover-migration pipeline of the Audion repository
(src-tauri/src/commands/covers.rs, src-tauri/src/scanner/cover_storage.rs,
src-tauri/src/db/queries.rs).

The Rust code is shallowly embedded:
  * pure functions (calculate_batch_size, ImageFormat::from_bytes, parse of
    file stems) are translated directly;
  * the SQLite store is a value of type DbState (a list of rows per table;
    an UPDATE ... WHERE id = ? maps every row with that id);
  * fallible collaborators (base64 decode, file write, row update, begin and
    commit of a transaction, file removal) are oracles carried in environment
    records, so a theorem can quantify over every possible outcome;
  * the parallel extraction stage (rayon par_iter feeding a crossbeam bounded
    channel) is modelled by the list of results it sends, in list order; the
    claims proved here are about final outcomes and termination, which do not
    depend on the interleaving, and the channel capacity only causes blocking,
    never drops or reorders;
  * the consumer loop of migrate_covers_to_files is a fuelled recursion, one
    unit of fuel per outer iteration; an inner receive loop that can never
    exit is the distinguished outcome `hung`, and a failed unwrap on begin or
    commit is the distinguished outcome `panicked`.

Floating point note: calculate_batch_size computes
`(base_size as f32 * 1.5) as usize` and `(base_size as f32 * 0.8) as usize`.
For every reachable base_size (25..150) the f32 computation truncates to
3*b/2 and 4*b/5 exactly (1.5 is exact in f32 and b*1.5 has at worst one
fractional bit; the f32 nearest to 0.8 exceeds 0.8 by a relative 1.5e-8,
far below half an ulp of any product in range), so the embedding uses the
exact rational truncations. The bounds claim is insensitive to this: the
final clamp alone forces the result into [20, 200].
-/

namespace Audion

/-! ## calculate_batch_size (covers.rs lines 88-114) -/

def calculate_batch_size (items_processed total_items queue_depth : Nat) : Nat :=
  if items_processed = 0 then 20
  else
    let base_size :=
      if items_processed < 500 then 25 + items_processed / 20
      else if items_processed < 2000 then 50 + (items_processed - 500) / 30
      else 100 + min ((items_processed - 2000) / 200) 50
    let adjusted :=
      if queue_depth > base_size * 3 then base_size * 3 / 2
      else if queue_depth < base_size / 2 then base_size * 4 / 5
      else base_size
    min (max adjusted 20) 200

/-! ## Image format sniffing (cover_storage.rs lines 9-52) -/

inductive ImageFormat where
  | Jpeg
  | Png
  | Webp
deriving DecidableEq

def ImageFormat.from_bytes (data : List Nat) : Option ImageFormat :=
  if data.length < 4 then none
  else if data.take 3 = [0xFF, 0xD8, 0xFF] then some .Jpeg
  else if data.take 4 = [0x89, 0x50, 0x4E, 0x47] then some .Png
  else if 12 ≤ data.length ∧ data.take 4 = [0x52, 0x49, 0x46, 0x46]
           ∧ (data.drop 8).take 4 = [0x57, 0x45, 0x42, 0x50] then some .Webp
  else none

def ImageFormat.extension : ImageFormat → String
  | .Jpeg => "jpg"
  | .Png => "png"
  | .Webp => "webp"

/-! ## Filesystem / decoding collaborators

`FsEnv` carries the outcomes of the external collaborators used by
save_track_cover / save_album_art (cover_storage.rs lines 94-150):
the covers directories (get_tracks_covers_directory can fail), the base64
decoder, and the file writer. -/

structure FsEnv where
  tracks_dir : Except String String
  albums_dir : Except String String
  decode : String → Except String (List Nat)
  write : String → List Nat → Except String Unit

/-- Embedding of save_track_cover (cover_storage.rs lines 96-111). -/
def save_track_cover (env : FsEnv) (track_id : Int) (image_data : List Nat) :
    Except String String :=
  match env.tracks_dir with
  | .error e => .error e
  | .ok tracks_dir =>
    match ImageFormat.from_bytes image_data with
    | none => .error "Unsupported or invalid image format"
    | some format =>
      let filename := toString track_id ++ "." ++ format.extension
      let file_path := tracks_dir ++ "/" ++ filename
      match env.write file_path image_data with
      | .error e => .error ("Failed to write cover file: " ++ e)
      | .ok _ => .ok file_path

/-- Embedding of save_track_cover_from_base64 (cover_storage.rs lines 114-121). -/
def save_track_cover_from_base64 (env : FsEnv) (track_id : Int) (base64_data : String) :
    Except String String :=
  match env.decode base64_data with
  | .error e => .error ("Failed to decode base64: " ++ e)
  | .ok image_bytes => save_track_cover env track_id image_bytes

/-- Embedding of save_album_art (cover_storage.rs lines 125-140). -/
def save_album_art (env : FsEnv) (album_id : Int) (image_data : List Nat) :
    Except String String :=
  match env.albums_dir with
  | .error e => .error e
  | .ok albums_dir =>
    match ImageFormat.from_bytes image_data with
    | none => .error "Unsupported or invalid image format"
    | some format =>
      let filename := toString album_id ++ "." ++ format.extension
      let file_path := albums_dir ++ "/" ++ filename
      match env.write file_path image_data with
      | .error e => .error ("Failed to write album art file: " ++ e)
      | .ok _ => .ok file_path

/-- Embedding of save_album_art_from_base64 (cover_storage.rs lines 143-150). -/
def save_album_art_from_base64 (env : FsEnv) (album_id : Int) (base64_data : String) :
    Except String String :=
  match env.decode base64_data with
  | .error e => .error ("Failed to decode base64: " ++ e)
  | .ok image_bytes => save_album_art env album_id image_bytes

/-! ## The relational store -/

structure TrackRow where
  id : Int
  track_cover : Option String
  track_cover_path : Option String
deriving DecidableEq

structure AlbumRow where
  id : Int
  art_data : Option String
  art_path : Option String
deriving DecidableEq

structure DbState where
  tracks : List TrackRow
  albums : List AlbumRow
deriving DecidableEq

/-- SELECT id, track_cover FROM tracks
    WHERE track_cover IS NOT NULL AND track_cover_path IS NULL
    (covers.rs lines 142-154). -/
def enumerate_tracks (db : DbState) : List (Int × String) :=
  db.tracks.filterMap (fun r =>
    match r.track_cover, r.track_cover_path with
    | some data, none => some (r.id, data)
    | _, _ => none)

/-- SELECT id, art_data FROM albums
    WHERE art_data IS NOT NULL AND art_path IS NULL
    (covers.rs lines 159-171). -/
def enumerate_albums (db : DbState) : List (Int × String) :=
  db.albums.filterMap (fun r =>
    match r.art_data, r.art_path with
    | some data, none => some (r.id, data)
    | _, _ => none)

/-- Effect of `UPDATE tracks SET track_cover_path = ?1 WHERE id = ?2`:
every row whose id matches gets the new path. -/
def db_set_track_cover_path (db : DbState) (track_id : Int) (path : Option String) : DbState :=
  { db with tracks := db.tracks.map (fun r =>
      if r.id = track_id then { r with track_cover_path := path } else r) }

/-- Effect of `UPDATE albums SET art_path = ?1 WHERE id = ?2`. -/
def db_set_album_art_path (db : DbState) (album_id : Int) (path : Option String) : DbState :=
  { db with albums := db.albums.map (fun r =>
      if r.id = album_id then { r with art_path := path } else r) }

/-- Oracles for the storage engine during migration: whether a given row
update, and the begin / commit of the n-th transaction, fail. -/
structure DbEnv where
  row_update_fails : String → Int → Bool
  begin_fails : Nat → Bool
  commit_fails : Nat → Bool

/-- Embedding of queries::update_track_cover_path (queries.rs lines 512-518). -/
def update_track_cover_path (env : DbEnv) (db : DbState) (track_id : Int)
    (path : Option String) : Except String DbState :=
  if env.row_update_fails "track" track_id then .error "UPDATE failed"
  else .ok (db_set_track_cover_path db track_id path)

/-- Embedding of queries::update_album_art_path (queries.rs lines 521-527). -/
def update_album_art_path (env : DbEnv) (db : DbState) (album_id : Int)
    (path : Option String) : Except String DbState :=
  if env.row_update_fails "album" album_id then .error "UPDATE failed"
  else .ok (db_set_album_art_path db album_id path)

/-! ## Migration pipeline (covers.rs lines 116-380) -/

inductive MigrationWorkItem where
  | Track (track_id : Int) (base64_data : String)
  | Album (album_id : Int) (base64_data : String)
deriving DecidableEq

structure MigrationResult where
  id : Int
  path : String
  item_type : String
deriving DecidableEq

structure MigrationProgress where
  total : Nat
  processed : Nat
  tracks_migrated : Nat
  albums_migrated : Nat
  errors : List String
deriving DecidableEq

/-- One transform worker (the closure of the par_iter in covers.rs lines
206-226): `.ok()` turns a failure into None, so a failed item produces no
result at all. -/
def transform_item (env : FsEnv) : MigrationWorkItem → Option MigrationResult
  | .Track track_id cover_data =>
    (save_track_cover_from_base64 env track_id cover_data).toOption.map
      (fun path => { id := track_id, path := path, item_type := "track" })
  | .Album album_id art_data =>
    (save_album_art_from_base64 env album_id art_data).toOption.map
      (fun path => { id := album_id, path := path, item_type := "album" })

/-- The extraction thread (covers.rs lines 205-233): only a Some result is
sent on the channel and counted by extracted_count (fetch_add sits inside
`if let Some(res)`). Returns (channel contents, final extracted_count). -/
def producer_phase (env : FsEnv) (work_items : List MigrationWorkItem) :
    List MigrationResult × Nat :=
  let sent := work_items.filterMap (transform_item env)
  (sent, sent.length)

/-- The work list built at covers.rs lines 197-203. -/
def migration_work_items (db : DbState) : List MigrationWorkItem :=
  (enumerate_tracks db).map (fun p => MigrationWorkItem.Track p.1 p.2)
    ++ (enumerate_albums db).map (fun p => MigrationWorkItem.Album p.1 p.2)

/-- The inner receive loop (covers.rs lines 256-266), evaluated once the
producers have finished. `recv_timeout` succeeds while the channel is
non-empty; on an empty channel it errs, and the loop breaks out only when
`extracted_count >= total_items`. If the channel holds fewer than
batch_size items and extracted_count is below the total, the loop can
never exit: that is the `none` case. -/
def collect_batch (extracted total_items batch_size : Nat)
    (channel : List MigrationResult) :
    Option (List MigrationResult × List MigrationResult) :=
  if batch_size ≤ channel.length then
    some (channel.take batch_size, channel.drop batch_size)
  else if total_items ≤ extracted then
    some (channel, [])
  else none

def row_update_error_msg (item_type : String) (id : Int) (e : String) : String :=
  "Failed to update " ++ item_type ++ " " ++ toString id ++ ": " ++ e

structure BatchOutcome where
  db : DbState
  tracks_migrated : Nat
  albums_migrated : Nat
  errors : List String
  batch_items : List MigrationResult
deriving DecidableEq

/-- One iteration of the per-result loop inside a batch transaction
(covers.rs lines 276-306): a row update failure is recorded and the batch
continues. -/
def process_result (env : DbEnv) (acc : BatchOutcome) (result : MigrationResult) :
    BatchOutcome :=
  let update_result :=
    if result.item_type = "track" then
      update_track_cover_path env acc.db result.id (some result.path)
    else
      update_album_art_path env acc.db result.id (some result.path)
  match update_result with
  | .ok db2 =>
    if result.item_type = "track" then
      { acc with db := db2, tracks_migrated := acc.tracks_migrated + 1,
                 batch_items := acc.batch_items ++ [result] }
    else
      { acc with db := db2, albums_migrated := acc.albums_migrated + 1,
                 batch_items := acc.batch_items ++ [result] }
  | .error e =>
    { acc with errors := acc.errors ++ [row_update_error_msg result.item_type result.id e] }

def process_batch (env : DbEnv) (db : DbState) (pending : List MigrationResult) :
    BatchOutcome :=
  pending.foldl (process_result env)
    { db := db, tracks_migrated := 0, albums_migrated := 0, errors := [], batch_items := [] }

/-- The transaction wrapping one batch (covers.rs lines 273 and 308):
`conn.transaction().unwrap()` and `tx_db.commit().unwrap()` both panic on
failure, which is the `none` case. -/
def batch_transaction (env : DbEnv) (batch_idx : Nat) (db : DbState)
    (pending : List MigrationResult) : Option BatchOutcome :=
  if env.begin_fails batch_idx then none
  else
    let out := process_batch env db pending
    if env.commit_fails batch_idx then none
    else some out

structure AssemblerState where
  channel : List MigrationResult
  db : DbState
  tracks_migrated : Nat
  albums_migrated : Nat
  items_sent : Nat
  batches_sent : Nat
  errors : List String
deriving DecidableEq

inductive RunResult where
  | finished (s : AssemblerState)
  | hung
  | panicked
  | outOfFuel
deriving DecidableEq

/-- The consumer loop of covers.rs lines 250-340, one unit of fuel per outer
iteration. -/
def run_batch_loop (env : DbEnv) (extracted total_items : Nat) :
    Nat → AssemblerState → RunResult
  | 0, _ => .outOfFuel
  | fuel + 1, s =>
    let queue_depth := s.channel.length
    let batch_size := calculate_batch_size s.items_sent total_items queue_depth
    match collect_batch extracted total_items batch_size s.channel with
    | none => .hung
    | some (pending, rest) =>
      if pending.isEmpty then .finished s
      else
        match batch_transaction env s.batches_sent s.db pending with
        | none => .panicked
        | some out =>
          let s2 : AssemblerState :=
            { channel := rest, db := out.db,
              tracks_migrated := s.tracks_migrated + out.tracks_migrated,
              albums_migrated := s.albums_migrated + out.albums_migrated,
              items_sent := s.items_sent + out.batch_items.length,
              batches_sent := s.batches_sent + 1,
              errors := s.errors ++ out.errors }
          if total_items ≤ s2.items_sent then .finished s2
          else run_batch_loop env extracted total_items fuel s2

inductive MigrateOutcome where
  | ok (progress : MigrationProgress) (db : DbState)
  | hung
  | panicked
  | outOfFuel
deriving DecidableEq

/-- Embedding of migrate_covers_to_files (covers.rs lines 129-380):
enumerate, early return on an empty work list, run the producers, then the
batch-assembly loop; the terminal summary mirrors lines 373-379. -/
def migrate_covers_to_files (fs : FsEnv) (env : DbEnv) (fuel : Nat) (db : DbState) :
    MigrateOutcome :=
  let tracks := enumerate_tracks db
  let albums := enumerate_albums db
  let total_items := tracks.length + albums.length
  if total_items = 0 then
    .ok { total := 0, processed := 0, tracks_migrated := 0, albums_migrated := 0,
          errors := [] } db
  else
    let sent_extracted := producer_phase fs (migration_work_items db)
    match run_batch_loop env sent_extracted.2 total_items fuel
        { channel := sent_extracted.1, db := db, tracks_migrated := 0,
          albums_migrated := 0, items_sent := 0, batches_sent := 0, errors := [] } with
    | .finished s =>
      .ok { total := total_items,
            processed := s.tracks_migrated + s.albums_migrated,
            tracks_migrated := s.tracks_migrated,
            albums_migrated := s.albums_migrated,
            errors := s.errors } s.db
    | .hung => .hung
    | .panicked => .panicked
    | .outOfFuel => .outOfFuel

/-! ## merge_duplicate_covers consumer (covers.rs lines 544-648)

The analysis stage delivers, per album, a map from content hash to the
bucket of (file path, byte size) pairs sharing that hash, together with the
map from file path to the track ids referencing it. The consumer walks the
hash buckets; the definitions below embed the body of the
`for (hash, mut group)` loop (lines 551-624). -/

inductive RemoveResult where
  | ok
  | notFound
  | otherError (e : String)
deriving DecidableEq

/-- Oracles for the merge consumer: transaction begin / commit outcomes
(indexed by how many transactions were attempted so far), per-row UPDATE
outcomes, and fs::remove_file outcomes. -/
structure MergeEnv where
  begin_fails : Nat → Bool
  commit_fails : Nat → Bool
  update_fails : Int → Bool
  remove_file : String → RemoveResult

structure MergeState where
  db : DbState
  covers_merged : Nat
  space_saved_bytes : Nat
  errors : List String
  fs_deleted : List String
  tx_count : Nat
deriving DecidableEq

/-- Lexicographic comparison of character lists, the embedding of
`str::cmp` (Rust compares strings bytewise; UTF-8 byte order coincides
with codepoint order). -/
def chars_cmp : List Char → List Char → Ordering
  | [], [] => .eq
  | [], _ :: _ => .lt
  | _ :: _, [] => .gt
  | a :: as, b :: bs =>
    if a.toNat < b.toNat then .lt
    else if b.toNat < a.toNat then .gt
    else chars_cmp as bs

/-- `a.0.cmp(&b.0)` on paths. -/
def path_cmp (a b : String) : Ordering :=
  chars_cmp a.data b.data

/-- The non-strict order induced by path_cmp. -/
def path_le (a b : String) : Prop :=
  path_cmp a b ≠ Ordering.gt

/-- Stable insertion of an element into a path-sorted list: the element
goes after every element whose path does not compare greater. -/
def insert_by_path (p : String × Nat) : List (String × Nat) → List (String × Nat)
  | [] => [p]
  | q :: rest =>
    if path_cmp p.1 q.1 = .lt then p :: q :: rest else q :: insert_by_path p rest

/-- `group.sort_by(|a, b| a.0.cmp(&b.0))` (covers.rs line 564): a stable
comparison sort of the bucket by file path. The source uses the standard
library sort; any stable sort by the same comparator is the same function,
and a structurally recursive insertion sort keeps the embedding
computable. -/
def sort_group (group : List (String × Nat)) : List (String × Nat) :=
  group.foldr insert_by_path []

/-- `let canonical_cover = &group[0].0` after the sort (covers.rs line 565). -/
def canonical_cover_of (group : List (String × Nat)) : String :=
  ((sort_group group).headD ("", 0)).1

/-- `album_group.filepath_to_tracks.get(old_cover_path)` with the map
embedded as an association list. -/
def lookup_tracks (fpt : List (String × List Int)) (path : String) :
    Option (List Int) :=
  (fpt.find? (fun kv => kv.1 == path)).map (fun kv => kv.2)

/-- The update list collected at covers.rs lines 567-577: for every
non-canonical entry of the sorted bucket whose path is a key of
filepath_to_tracks, each referencing track is repointed to the canonical
path. -/
def collect_updates (fpt : List (String × List Int)) (group : List (String × Nat)) :
    List (Int × String) :=
  let canonical_cover := canonical_cover_of group
  ((sort_group group).drop 1).flatMap (fun p =>
    match lookup_tracks fpt p.1 with
    | some track_ids => track_ids.map (fun track_id => (track_id, canonical_cover))
    | none => [])

/-- The files_to_delete list collected in the same loop. -/
def files_to_delete_of (fpt : List (String × List Int)) (group : List (String × Nat)) :
    List (String × Nat) :=
  ((sort_group group).drop 1).filter (fun p => (lookup_tracks fpt p.1).isSome)

/-- The per-update loop inside the merge transaction (covers.rs lines
591-598): a failed UPDATE is pushed on the error list and the transaction
continues. Returns the updated store and the errors recorded. -/
def apply_update_step (env : MergeEnv) (acc : DbState × List String)
    (u : Int × String) : DbState × List String :=
  if env.update_fails u.1 then
    (acc.1, acc.2 ++ [row_update_error_msg "track" u.1 "UPDATE failed"])
  else
    (db_set_track_cover_path acc.1 u.1 (some u.2), acc.2)

def apply_updates (env : MergeEnv) (db : DbState) (updates : List (Int × String)) :
    DbState × List String :=
  updates.foldl (apply_update_step env) (db, [])

/-- The deletion loop (covers.rs lines 609-623): NotFound is tolerated
silently, any other error is recorded, and the loop always proceeds to the
next file. `fs_deleted` records the files actually removed from disk. -/
def delete_file_step (env : MergeEnv) (s : MergeState) (p : String × Nat) :
    MergeState :=
  match env.remove_file p.1 with
  | .ok =>
    { s with space_saved_bytes := s.space_saved_bytes + p.2,
             covers_merged := s.covers_merged + 1,
             fs_deleted := s.fs_deleted ++ [p.1] }
  | .notFound => s
  | .otherError e =>
    { s with errors := s.errors ++ ["Failed to delete " ++ p.1 ++ ": " ++ e] }

def delete_files (env : MergeEnv) (files : List (String × Nat)) (s : MergeState) :
    MergeState :=
  files.foldl (delete_file_step env) s

/-- The body of the `for (hash, mut group)` loop (covers.rs lines 551-624):
skip buckets of size < 2; sort and pick the canonical path; run one
transaction repointing the referencing rows, where a failed begin or commit
is recorded and `continue`s (skipping the deletions); only after a
successful commit are the non-canonical files deleted. -/
def process_hash_group (env : MergeEnv) (fpt : List (String × List Int))
    (group : List (String × Nat)) (s : MergeState) : MergeState :=
  if group.length < 2 then s
  else
    let updates := collect_updates fpt group
    let files_to_delete := files_to_delete_of fpt group
    if updates.isEmpty then
      delete_files env files_to_delete s
    else if env.begin_fails s.tx_count then
      { s with errors := s.errors ++ ["Failed to create transaction: tx begin failed"],
               tx_count := s.tx_count + 1 }
    else
      let applied := apply_updates env s.db updates
      if env.commit_fails s.tx_count then
        { s with errors := s.errors ++ applied.2
                   ++ ["Failed to commit transaction: tx commit failed"],
                 tx_count := s.tx_count + 1 }
      else
        delete_files env files_to_delete
          { s with db := applied.1, errors := s.errors ++ applied.2,
                   tx_count := s.tx_count + 1 }

/-- The walk over the hash buckets of one album group. -/
def process_cover_groups (env : MergeEnv) (fpt : List (String × List Int))
    (groups : List (List (String × Nat))) (s : MergeState) : MergeState :=
  groups.foldl (fun s g => process_hash_group env fpt g s) s

/-! ## cleanup_orphaned_covers (cover_storage.rs lines 219-313) -/

/-- Embedding of Rust `str::parse::<i64>`: an optional sign followed by at
least one ASCII digit and nothing else, within the i64 range. -/
def parse_i64 (s : String) : Option Int :=
  let chars := s.toList
  let signed : Bool × List Char :=
    match chars with
    | '-' :: rest => (true, rest)
    | '+' :: rest => (false, rest)
    | _ => (false, chars)
  if signed.2.isEmpty then none
  else if signed.2.all Char.isDigit then
    let v : Nat := signed.2.foldl (fun acc c => acc * 10 + (c.toNat - 48)) 0
    if signed.1 then
      if v ≤ 2 ^ 63 then some (-(v : Int)) else none
    else
      if v ≤ 2 ^ 63 - 1 then some (v : Int) else none
  else none

/-- A directory entry as cleanup_orphaned_covers observes it: its path, its
file stem (file_stem can be absent), and whether it is a regular file. -/
structure DirEntry where
  path : String
  stem : Option String
  is_file : Bool
deriving DecidableEq

/-- World of cleanup_orphaned_covers: the id sets loaded from the store
(SELECT id FROM tracks / albums), the listings of the two cover
directories, and the fs::remove_file outcome oracle. -/
structure CleanupEnv where
  track_ids : List Int
  album_ids : List Int
  tracks_entries : List DirEntry
  albums_entries : List DirEntry
  remove_fails : String → Bool

/-- One directory pass of cleanup_orphaned_covers (cover_storage.rs lines
256-281 and 285-310): for each regular file whose stem parses as an i64 not
contained in the id set, attempt deletion; a failed deletion is only logged
while a successful one is counted. Returns (deleted_count, deleted paths). -/
def cleanup_step (ids : List Int) (remove_fails : String → Bool)
    (acc : Nat × List String) (entry : DirEntry) : Nat × List String :=
  if entry.is_file then
    match entry.stem with
    | some stem =>
      match parse_i64 stem with
      | some file_id =>
        if file_id ∈ ids then acc
        else if remove_fails entry.path then acc
        else (acc.1 + 1, acc.2 ++ [entry.path])
      | none => acc
    | none => acc
  else acc

def cleanup_dir (ids : List Int) (remove_fails : String → Bool)
    (entries : List DirEntry) : Nat × List String :=
  entries.foldl (cleanup_step ids remove_fails) (0, [])

/-- Embedding of cleanup_orphaned_covers (cover_storage.rs lines 219-313).
The source returns only the count; the second component records the files
removed from disk, i.e. the fs effect of the call. -/
def cleanup_orphaned_covers (env : CleanupEnv) : Nat × List String :=
  let t := cleanup_dir env.track_ids env.remove_fails env.tracks_entries
  let a := cleanup_dir env.album_ids env.remove_fails env.albums_entries
  (t.1 + a.1, t.2 ++ a.2)

/-- The files the claim says must be deleted: present regular files whose
stem parses as an id outside the referenced set. Stated from the spec for
comparison with cleanup_dir. -/
def orphan_files (ids : List Int) (entries : List DirEntry) : List String :=
  entries.filterMap (fun e =>
    if e.is_file then
      match e.stem with
      | some stem =>
        match parse_i64 stem with
        | some file_id => if file_id ∈ ids then none else some e.path
        | none => none
      | none => none
    else none)

/-! ## get_track_cover_file_path / get_album_art_file_path
(cover_storage.rs lines 153-192)

Both functions swallow every query error through `.ok().flatten()` and
always return Ok, so the embedding returns the Ok payload directly;
`fs_exists` is the `Path::new(p).exists()` oracle. -/

def get_track_cover_file_path (fs_exists : String → Bool) (db : DbState)
    (track_id : Int) : Option String :=
  let path : Option String :=
    match db.tracks.find? (fun r => r.id == track_id) with
    | some row => row.track_cover_path
    | none => none
  match path with
  | some p => if fs_exists p then some p else none
  | none => none

def get_album_art_file_path (fs_exists : String → Bool) (db : DbState)
    (album_id : Int) : Option String :=
  let path : Option String :=
    match db.albums.find? (fun r => r.id == album_id) with
    | some row => row.art_path
    | none => none
  match path with
  | some p => if fs_exists p then some p else none
  | none => none

/-! ## Concrete fixtures used by counterexamples and witnesses -/

/-- A filesystem world in which base64 decoding always fails. -/
def bad_fs : FsEnv :=
  { tracks_dir := .ok "C:/covers/tracks", albums_dir := .ok "C:/covers/albums",
    decode := fun _ => .error "Invalid byte 33, offset 0.",
    write := fun _ _ => .ok () }

/-- A filesystem world in which every blob decodes to a JPEG and writes
succeed. -/
def ok_fs : FsEnv :=
  { tracks_dir := .ok "C:/covers/tracks", albums_dir := .ok "C:/covers/albums",
    decode := fun _ => .ok [0xFF, 0xD8, 0xFF, 0xE0],
    write := fun _ _ => .ok () }

/-- A storage engine in which nothing fails. -/
def benign_db_env : DbEnv :=
  { row_update_fails := fun _ _ => false, begin_fails := fun _ => false,
    commit_fails := fun _ => false }

/-- A storage engine in which opening a transaction always fails. -/
def begin_fail_env : DbEnv :=
  { row_update_fails := fun _ _ => false, begin_fails := fun _ => true,
    commit_fails := fun _ => false }

/-- A storage engine in which only the update of track 2 fails. -/
def bad_row_env : DbEnv :=
  { row_update_fails := fun _ i => i == 2, begin_fails := fun _ => false,
    commit_fails := fun _ => false }

/-- One track row holding a blob that is not valid base64. -/
def one_bad_track_db : DbState :=
  { tracks := [{ id := 1, track_cover := some "!!!", track_cover_path := none }],
    albums := [] }

/-- One track row holding a valid blob and no path yet. -/
def one_good_track_db : DbState :=
  { tracks := [{ id := 1, track_cover := some "abc", track_cover_path := none }],
    albums := [] }

/-- Three migrated-track rows, used by the partial-failure witness. -/
def three_track_db : DbState :=
  { tracks := [{ id := 1, track_cover := some "a", track_cover_path := none },
               { id := 2, track_cover := some "b", track_cover_path := none },
               { id := 3, track_cover := some "c", track_cover_path := none }],
    albums := [] }

def three_results : List MigrationResult :=
  [{ id := 1, path := "p1", item_type := "track" },
   { id := 2, path := "p2", item_type := "track" },
   { id := 3, path := "p3", item_type := "track" }]

/-- A duplicate bucket of two byte-identical files and the tracks
referencing them. -/
def w_group : List (String × Nat) := [("b.jpg", 10), ("a.jpg", 10)]

def w_fpt : List (String × List Int) := [("a.jpg", [1]), ("b.jpg", [2, 3])]

/-- A merge world where nothing fails. -/
def w_merge_ok : MergeEnv :=
  { begin_fails := fun _ => false, commit_fails := fun _ => false,
    update_fails := fun _ => false, remove_file := fun _ => .ok }

/-- A merge world where opening a transaction always fails. -/
def w_merge_begin_fail : MergeEnv :=
  { begin_fails := fun _ => true, commit_fails := fun _ => false,
    update_fails := fun _ => false, remove_file := fun _ => .ok }

/-- A merge world where committing always fails. -/
def w_merge_commit_fail : MergeEnv :=
  { begin_fails := fun _ => false, commit_fails := fun _ => true,
    update_fails := fun _ => false, remove_file := fun _ => .ok }

/-- A merge world where deleting b.jpg errs and everything else succeeds. -/
def w_merge_del_fail : MergeEnv :=
  { begin_fails := fun _ => false, commit_fails := fun _ => false,
    update_fails := fun _ => false,
    remove_file := fun p => if p == "b.jpg" then .otherError "Access is denied." else .ok }

def w_merge_state : MergeState :=
  { db := three_track_db, covers_merged := 0, space_saved_bytes := 0,
    errors := [], fs_deleted := [], tx_count := 0 }

/-- Terminal summary of the run of ok_fs / bad_row_env over three_track_db. -/
def w_run_summary : MigrationProgress :=
  { total := 3, processed := 2, tracks_migrated := 2, albums_migrated := 0,
    errors := ["Failed to update track 2: UPDATE failed"] }

/-- Store left by the run of ok_fs / bad_row_env over three_track_db. -/
def w_run_db : DbState :=
  { tracks := [{ id := 1, track_cover := some "a",
                 track_cover_path := some "C:/covers/tracks/1.jpg" },
               { id := 2, track_cover := some "b", track_cover_path := none },
               { id := 3, track_cover := some "c",
                 track_cover_path := some "C:/covers/tracks/3.jpg" }],
    albums := [] }

/-- Directory listing fixture for the orphan-cleanup witness. -/
def w_cleanup : CleanupEnv :=
  { track_ids := [1, 2], album_ids := [7],
    tracks_entries := [{ path := "t/1.jpg", stem := some "1", is_file := true },
                       { path := "t/3.jpg", stem := some "3", is_file := true },
                       { path := "t/x.jpg", stem := some "x", is_file := true },
                       { path := "t/sub", stem := some "9", is_file := false }],
    albums_entries := [{ path := "a/7.png", stem := some "7", is_file := true },
                       { path := "a/8.png", stem := some "8", is_file := true }],
    remove_fails := fun _ => false }

/-! ## Derived views of the batch updates, used to state the theorems -/

/-- The store effect of one successful row update of the batch loop
(covers.rs lines 277-289): a track result updates the tracks table, any
other result the albums table. -/
def apply_result (db : DbState) (r : MigrationResult) : DbState :=
  if r.item_type = "track" then db_set_track_cover_path db r.id (some r.path)
  else db_set_album_art_path db r.id (some r.path)

/-- The accumulated store effect of a list of successful row updates. -/
def apply_results (db : DbState) (rs : List MigrationResult) : DbState :=
  rs.foldl apply_result db

/-- The accumulated store effect of a list of track-row updates. -/
def apply_track_updates (db : DbState) (rs : List MigrationResult) : DbState :=
  rs.foldl (fun db r => db_set_track_cover_path db r.id (some r.path)) db

/-- The effect of one track-row update on a single row. -/
def track_update_row (row : TrackRow) (r : MigrationResult) : TrackRow :=
  if row.id = r.id then { row with track_cover_path := some r.path } else row

/-- The effect of a list of track-row updates on a single row. -/
def track_update_fold (row : TrackRow) (rs : List MigrationResult) : TrackRow :=
  rs.foldl track_update_row row

/-- The effect of one mixed-kind result on a single track row. -/
def track_row_step (row : TrackRow) (r : MigrationResult) : TrackRow :=
  if r.item_type = "track" then track_update_row row r else row

/-- The effect of a list of mixed-kind results on a single track row. -/
def track_row_fold (row : TrackRow) (rs : List MigrationResult) : TrackRow :=
  rs.foldl track_row_step row

/-- The effect of one mixed-kind result on a single album row. -/
def album_row_step (row : AlbumRow) (r : MigrationResult) : AlbumRow :=
  if r.item_type = "track" then row
  else if row.id = r.id then { row with art_path := some r.path } else row

/-- The effect of a list of mixed-kind results on a single album row. -/
def album_row_fold (row : AlbumRow) (rs : List MigrationResult) : AlbumRow :=
  rs.foldl album_row_step row

/-- The shape of every error the batch loop of migrate_covers_to_files can
record (covers.rs lines 299-304): a failed row-path update. -/
def IsRowUpdateError (e : String) : Prop :=
  ∃ t i m, e = row_update_error_msg t i m

/-! ## Theorems -/

theorem calculate_batch_size_bounds (p t q : Nat) :
    20 ≤ calculate_batch_size p t q ∧ calculate_batch_size p t q ≤ 200 := by
  unfold calculate_batch_size
  split
  · exact ⟨le_refl 20, by norm_num⟩
  · dsimp only
    refine ⟨le_min (le_max_right _ 20) (by norm_num), min_le_right _ 200⟩

/-- C5: for every value of items_processed, total_items and queue_depth
(queue depth 0 and queue depth far beyond the total included),
calculate_batch_size stays within the fixed bounds [20, 200]. -/
theorem batch_size_always_in_bounds (items_processed total_items queue_depth : Nat) :
    20 ≤ calculate_batch_size items_processed total_items queue_depth ∧
    calculate_batch_size items_processed total_items queue_depth ≤ 200 :=
  calculate_batch_size_bounds items_processed total_items queue_depth

theorem run_batch_loop_stuck (env : DbEnv) (extracted total_items : Nat)
    (h : extracted < total_items) (fuel : Nat) (s : AssemblerState)
    (hs : s.channel = []) :
    run_batch_loop env extracted total_items (fuel + 1) s = RunResult.hung := by
  have hbs := (calculate_batch_size_bounds s.items_sent total_items 0).1
  have h1 : ¬ (calculate_batch_size s.items_sent total_items 0 ≤ 0) := by omega
  have h2 : ¬ (total_items ≤ extracted) := by omega
  simp only [run_batch_loop, hs, List.length_nil, collect_batch, h1, h2,
    if_false]

theorem migrate_bad_track_hangs (fuel : Nat) :
    migrate_covers_to_files bad_fs benign_db_env (fuel + 1) one_bad_track_db
      = MigrateOutcome.hung := by
  have henum : enumerate_tracks one_bad_track_db = [(1, "!!!")] := rfl
  have henum2 : enumerate_albums one_bad_track_db = [] := rfl
  have hprod : producer_phase bad_fs (migration_work_items one_bad_track_db)
      = ([], 0) := rfl
  have hstuck := run_batch_loop_stuck benign_db_env 0 1 (by norm_num) fuel
    { channel := [], db := one_bad_track_db, tracks_migrated := 0,
      albums_migrated := 0, items_sent := 0, batches_sent := 0, errors := [] } rfl
  simp only [migrate_covers_to_files, henum, henum2, hprod, List.length_cons,
    List.length_nil, hstuck]
  norm_num

/-- C1: against the claim, the Adaptive Batch Assembler loop of
migrate_covers_to_files does not terminate on a run in which an item
failed transform: with one track whose blob fails base64 decode, the
extracted counter stays at 0 while the total is 1, the exit check
`extracted_count >= total_items` never fires, and for every fuel the
consumer loop is stuck in its receive loop instead of reaching the
Finished state. -/
theorem migration_hangs_when_an_item_fails (fuel : Nat) :
    migrate_covers_to_files bad_fs benign_db_env (fuel + 1) one_bad_track_db
      = MigrateOutcome.hung :=
  migrate_bad_track_hangs fuel

/-- C10: get_track_cover_file_path and get_album_art_file_path return a
path exactly when the row is found, its path column is non-null, and the
file exists on disk; in every other case they return None (the source
always returns Ok, swallowing query errors). -/
theorem cover_path_getters_verified (fs_exists : String → Bool) (db : DbState)
    (id : Int) (p : String) :
    (get_track_cover_file_path fs_exists db id = some p ↔
      (∃ row, db.tracks.find? (fun r => r.id == id) = some row ∧
        row.track_cover_path = some p ∧ fs_exists p = true))
    ∧ (get_album_art_file_path fs_exists db id = some p ↔
      (∃ row, db.albums.find? (fun r => r.id == id) = some row ∧
        row.art_path = some p ∧ fs_exists p = true)) := by
  constructor
  · unfold get_track_cover_file_path
    cases hfind : db.tracks.find? (fun r => r.id == id) with
    | none => simp
    | some row =>
      cases hpath : row.track_cover_path with
      | none => simp [hpath]
      | some q =>
        simp only [hpath]
        by_cases hex : fs_exists q = true
        · rw [if_pos hex]
          constructor
          · intro h
            cases Option.some.inj h
            exact ⟨row, rfl, hpath, hex⟩
          · rintro ⟨row2, hrow2, hpath2, hex2⟩
            cases Option.some.inj hrow2
            rw [hpath] at hpath2
            cases Option.some.inj hpath2
            rfl
        · rw [if_neg hex]
          constructor
          · intro h
            exact absurd h (by simp)
          · rintro ⟨row2, hrow2, hpath2, hex2⟩
            cases Option.some.inj hrow2
            rw [hpath] at hpath2
            cases Option.some.inj hpath2
            exact absurd hex2 hex
  · unfold get_album_art_file_path
    cases hfind : db.albums.find? (fun r => r.id == id) with
    | none => simp
    | some row =>
      cases hpath : row.art_path with
      | none => simp [hpath]
      | some q =>
        simp only [hpath]
        by_cases hex : fs_exists q = true
        · rw [if_pos hex]
          constructor
          · intro h
            cases Option.some.inj h
            exact ⟨row, rfl, hpath, hex⟩
          · rintro ⟨row2, hrow2, hpath2, hex2⟩
            cases Option.some.inj hrow2
            rw [hpath] at hpath2
            cases Option.some.inj hpath2
            rfl
        · rw [if_neg hex]
          constructor
          · intro h
            exact absurd h (by simp)
          · rintro ⟨row2, hrow2, hpath2, hex2⟩
            cases Option.some.inj hrow2
            rw [hpath] at hpath2
            cases Option.some.inj hpath2
            exact absurd hex2 hex

theorem cleanup_dir_ok (ids : List Int) (rf : String → Bool)
    (entries : List DirEntry) (hok : ∀ p, rf p = false) :
    cleanup_dir ids rf entries
      = ((orphan_files ids entries).length, orphan_files ids entries) := by
  unfold cleanup_dir
  have key : ∀ (es : List DirEntry) (acc : Nat × List String),
      es.foldl (cleanup_step ids rf) acc
      = (acc.1 + (orphan_files ids es).length, acc.2 ++ orphan_files ids es) := by
    intro es
    induction es with
    | nil => intro acc; simp [orphan_files]
    | cons e es ih =>
      intro acc
      rw [List.foldl_cons]
      by_cases hf : e.is_file
      · cases hstem : e.stem with
        | none =>
          have hstep : cleanup_step ids rf acc e = acc := by
            simp [cleanup_step, hf, hstem]
          rw [hstep, ih]
          simp [orphan_files, hf, hstem]
        | some st =>
          cases hp : parse_i64 st with
          | none =>
            have hstep : cleanup_step ids rf acc e = acc := by
              simp [cleanup_step, hf, hstem, hp]
            rw [hstep, ih]
            simp [orphan_files, hf, hstem, hp]
          | some i =>
            by_cases hmem : i ∈ ids
            · have hstep : cleanup_step ids rf acc e = acc := by
                simp [cleanup_step, hf, hstem, hp, hmem]
              rw [hstep, ih]
              simp [orphan_files, hf, hstem, hp, hmem]
            · have hstep : cleanup_step ids rf acc e
                  = (acc.1 + 1, acc.2 ++ [e.path]) := by
                simp [cleanup_step, hf, hstem, hp, hmem, hok]
              rw [hstep, ih]
              have hx : orphan_files ids (e :: es) = e.path :: orphan_files ids es := by
                simp [orphan_files, hf, hstem, hp, hmem]
              rw [hx]
              simp only [Prod.mk.injEq, List.length_cons]
              refine ⟨by omega, by simp⟩
      · have hstep : cleanup_step ids rf acc e = acc := by
          simp [cleanup_step, hf]
        rw [hstep, ih]
        simp [orphan_files, hf]
  simpa using key entries (0, [])

/-- C9: with the deletion collaborator healthy, cleanup_orphaned_covers
removes exactly the present regular files of the two cover directories
whose stem parses as an i64 identifier absent from the referenced id sets,
touches nothing else, and returns the number of files it deleted. -/
theorem cleanup_orphaned_covers_exact (env : CleanupEnv)
    (hok : ∀ p, env.remove_fails p = false) :
    (cleanup_orphaned_covers env).2
      = orphan_files env.track_ids env.tracks_entries
        ++ orphan_files env.album_ids env.albums_entries
    ∧ (cleanup_orphaned_covers env).1
      = (orphan_files env.track_ids env.tracks_entries
        ++ orphan_files env.album_ids env.albums_entries).length := by
  unfold cleanup_orphaned_covers
  rw [cleanup_dir_ok _ _ _ hok, cleanup_dir_ok _ _ _ hok]
  simp

/-- Witness for C9 at a concrete store and directory listing: among
t/{1,3,x}.jpg and a non-file entry, with tracks {1,2} referenced, only
t/3.jpg is orphaned; among a/{7,8}.png with album 7 referenced, only
a/8.png is orphaned. -/
theorem cleanup_orphaned_covers_exact_witness :
    (∀ p, w_cleanup.remove_fails p = false) ∧
    (cleanup_orphaned_covers w_cleanup).2
      = orphan_files w_cleanup.track_ids w_cleanup.tracks_entries
        ++ orphan_files w_cleanup.album_ids w_cleanup.albums_entries ∧
    (cleanup_orphaned_covers w_cleanup).2 = ["t/3.jpg", "a/8.png"] ∧
    (cleanup_orphaned_covers w_cleanup).1 = 2 :=
  ⟨fun _ => rfl, (cleanup_orphaned_covers_exact w_cleanup (fun _ => rfl)).1,
    by decide, by decide⟩

/-! ### Merge pipeline lemmas -/

theorem chars_cmp_eq_iff : ∀ {a b : List Char}, chars_cmp a b = .eq ↔ a = b := by
  intro a
  induction a with
  | nil => intro b; cases b <;> simp [chars_cmp]
  | cons x as ih =>
    intro b
    cases b with
    | nil => simp [chars_cmp]
    | cons y bs =>
      unfold chars_cmp
      by_cases h1 : x.toNat < y.toNat
      · simp only [if_pos h1]
        have hne : x ≠ y := fun hxy => by cases hxy; omega
        simp [hne]
      · rw [if_neg h1]
        by_cases h2 : y.toNat < x.toNat
        · simp only [if_pos h2]
          have hne : x ≠ y := fun hxy => by cases hxy; omega
          simp [hne]
        · rw [if_neg h2]
          have hn : x.toNat = y.toNat := by omega
          have hxy : x = y := by
            calc x = Char.ofNat x.toNat := (Char.ofNat_toNat x).symm
            _ = Char.ofNat y.toNat := by rw [hn]
            _ = y := Char.ofNat_toNat y
          simp [hxy, ih]

theorem chars_cmp_swap : ∀ {a b : List Char},
    chars_cmp a b = .lt ↔ chars_cmp b a = .gt := by
  intro a
  induction a with
  | nil => intro b; cases b <;> simp [chars_cmp]
  | cons x as ih =>
    intro b
    cases b with
    | nil => simp [chars_cmp]
    | cons y bs =>
      unfold chars_cmp
      by_cases h1 : x.toNat < y.toNat
      · have h2 : ¬ y.toNat < x.toNat := by omega
        simp [h1, h2]
      · rw [if_neg h1]
        by_cases h2 : y.toNat < x.toNat
        · simp [h1, h2]
        · rw [if_neg h2, if_neg h2, if_neg h1]
          exact ih

theorem chars_cmp_lt_trans : ∀ {a b c : List Char},
    chars_cmp a b = .lt → chars_cmp b c = .lt → chars_cmp a c = .lt := by
  intro a
  induction a with
  | nil =>
    intro b c hab hbc
    cases b with
    | nil => simp [chars_cmp] at hab
    | cons y bs =>
      cases c with
      | nil => simp [chars_cmp] at hbc
      | cons z cs => simp [chars_cmp]
  | cons x as ih =>
    intro b c hab hbc
    cases b with
    | nil => simp [chars_cmp] at hab
    | cons y bs =>
      cases c with
      | nil => simp [chars_cmp] at hbc
      | cons z cs =>
        unfold chars_cmp at hab hbc ⊢
        by_cases hxy : x.toNat < y.toNat
        · by_cases hyz : y.toNat < z.toNat
          · rw [if_pos (by omega : x.toNat < z.toNat)]
          · rw [if_neg hyz] at hbc
            by_cases hzy : z.toNat < y.toNat
            · rw [if_pos hzy] at hbc; cases hbc
            · rw [if_pos (by omega : x.toNat < z.toNat)]
        · rw [if_neg hxy] at hab
          by_cases hyx : y.toNat < x.toNat
          · rw [if_pos hyx] at hab; cases hab
          · rw [if_neg hyx] at hab
            by_cases hyz : y.toNat < z.toNat
            · rw [if_pos (by omega : x.toNat < z.toNat)]
            · rw [if_neg hyz] at hbc
              by_cases hzy : z.toNat < y.toNat
              · rw [if_pos hzy] at hbc; cases hbc
              · rw [if_neg hzy] at hbc
                rw [if_neg (by omega : ¬ x.toNat < z.toNat),
                  if_neg (by omega : ¬ z.toNat < x.toNat)]
                exact ih hab hbc

theorem path_le_refl (a : String) : path_le a a := by
  unfold path_le path_cmp
  rw [chars_cmp_eq_iff.mpr rfl]
  simp

theorem path_le_of_lt {a b : String} (h : path_cmp a b = .lt) : path_le a b := by
  unfold path_le
  rw [h]
  simp

theorem path_le_of_not_lt {a b : String} (h : ¬ path_cmp a b = .lt) : path_le b a := by
  unfold path_le path_cmp at *
  intro hgt
  exact h (chars_cmp_swap.mpr hgt)

theorem path_le_trans {a b c : String} (hab : path_le a b) (hbc : path_le b c) :
    path_le a c := by
  unfold path_le path_cmp at *
  cases h1 : chars_cmp a.data b.data with
  | gt => exact absurd h1 hab
  | eq =>
    rw [chars_cmp_eq_iff.mp h1]
    exact hbc
  | lt =>
    cases h2 : chars_cmp b.data c.data with
    | gt => exact absurd h2 hbc
    | eq =>
      rw [← chars_cmp_eq_iff.mp h2]
      rw [h1]
      simp
    | lt =>
      rw [chars_cmp_lt_trans h1 h2]
      simp

theorem insert_by_path_perm (p : String × Nat) (l : List (String × Nat)) :
    (insert_by_path p l).Perm (p :: l) := by
  induction l with
  | nil => exact List.Perm.refl _
  | cons q rest ih =>
    unfold insert_by_path
    by_cases h : path_cmp p.1 q.1 = .lt
    · rw [if_pos h]
    · rw [if_neg h]
      exact (ih.cons q).trans (List.Perm.swap p q rest)

theorem sort_group_perm (group : List (String × Nat)) :
    (sort_group group).Perm group := by
  induction group with
  | nil => exact List.Perm.refl _
  | cons p rest ih =>
    unfold sort_group at *
    rw [List.foldr_cons]
    exact (insert_by_path_perm p _).trans (ih.cons p)

theorem mem_insert_by_path {x p : String × Nat} {l : List (String × Nat)} :
    x ∈ insert_by_path p l ↔ x = p ∨ x ∈ l := by
  rw [(insert_by_path_perm p l).mem_iff]
  simp

theorem insert_by_path_pairwise (p : String × Nat) (l : List (String × Nat))
    (h : l.Pairwise (fun a b => path_le a.1 b.1)) :
    (insert_by_path p l).Pairwise (fun a b => path_le a.1 b.1) := by
  induction l with
  | nil => simp [insert_by_path]
  | cons q rest ih =>
    rcases List.pairwise_cons.mp h with ⟨hq, hrest⟩
    unfold insert_by_path
    by_cases hlt : path_cmp p.1 q.1 = .lt
    · rw [if_pos hlt]
      refine List.pairwise_cons.mpr ⟨?_, h⟩
      intro x hx
      rcases List.mem_cons.mp hx with rfl | hx2
      · exact path_le_of_lt hlt
      · exact path_le_trans (path_le_of_lt hlt) (hq x hx2)
    · rw [if_neg hlt]
      refine List.pairwise_cons.mpr ⟨?_, ih hrest⟩
      intro x hx
      rcases mem_insert_by_path.mp hx with rfl | hx2
      · exact path_le_of_not_lt hlt
      · exact hq x hx2

theorem sort_group_sorted (group : List (String × Nat)) :
    (sort_group group).Pairwise (fun a b => path_le a.1 b.1) := by
  induction group with
  | nil => simp [sort_group]
  | cons p rest ih =>
    unfold sort_group at *
    rw [List.foldr_cons]
    exact insert_by_path_pairwise p _ ih

theorem path_le_antisymm {a b : String} (hab : path_le a b) (hba : path_le b a) :
    a = b := by
  unfold path_le path_cmp at *
  cases h1 : chars_cmp a.data b.data with
  | gt => exact absurd h1 hab
  | lt => exact absurd (chars_cmp_swap.mp h1) hba
  | eq =>
    have hdata := chars_cmp_eq_iff.mp h1
    cases a
    cases b
    exact congrArg String.mk hdata

theorem canonical_cover_min (group : List (String × Nat)) (h1 : 1 ≤ group.length) :
    canonical_cover_of group ∈ group.map Prod.fst ∧
    ∀ p ∈ group.map Prod.fst, path_le (canonical_cover_of group) p := by
  have hperm := sort_group_perm group
  have hsorted := sort_group_sorted group
  have hlen : 1 ≤ (sort_group group).length := by
    rw [hperm.length_eq]
    exact h1
  cases hsort : sort_group group with
  | nil => rw [hsort] at hlen; simp at hlen
  | cons c rest =>
    rw [hsort] at hperm hsorted
    have hcan : canonical_cover_of group = c.1 := by
      unfold canonical_cover_of
      rw [hsort]
      rfl
    rw [hcan]
    constructor
    · exact List.mem_map_of_mem Prod.fst (hperm.mem_iff.mp (List.mem_cons_self c rest))
    · intro p hp
      rcases List.mem_map.mp hp with ⟨pr, hpr, rfl⟩
      rcases List.mem_cons.mp (hperm.mem_iff.mpr hpr) with hc | hrest
      · rw [hc]
        exact path_le_refl _
      · exact (List.pairwise_cons.mp hsorted).1 pr hrest

/-- C6: in merge_duplicate_covers, the canonical cover of a hash bucket is
the lexicographically smallest path of the bucket; every track referencing
a non-canonical path of the bucket (per filepath_to_tracks) is repointed to
the canonical path in the collected update list; and the choice is
invariant under any reordering of the bucket, so repeated runs over the
same duplicate set pick the same canonical path. -/
theorem merge_canonical_is_lex_min_and_repoints (fpt : List (String × List Int))
    (group : List (String × Nat)) (h2 : 2 ≤ group.length) :
    (canonical_cover_of group ∈ group.map Prod.fst ∧
      ∀ p ∈ group.map Prod.fst, path_le (canonical_cover_of group) p)
    ∧ (∀ pr ∈ group, pr.1 ≠ canonical_cover_of group →
        ∀ track_ids, lookup_tracks fpt pr.1 = some track_ids →
          ∀ tid ∈ track_ids, (tid, canonical_cover_of group) ∈ collect_updates fpt group)
    ∧ (∀ group2 : List (String × Nat), group2.Perm group →
        canonical_cover_of group2 = canonical_cover_of group) := by
  refine ⟨canonical_cover_min group (by omega), ?_, ?_⟩
  · intro pr hpr hne track_ids hlook tid htid
    have hperm := sort_group_perm group
    have hmem : pr ∈ sort_group group := hperm.mem_iff.mpr hpr
    have hlen : 1 ≤ (sort_group group).length := by
      rw [hperm.length_eq]; omega
    cases hsort : sort_group group with
    | nil => rw [hsort] at hlen; simp at hlen
    | cons c rest =>
      have hcan : canonical_cover_of group = c.1 := by
        unfold canonical_cover_of
        rw [hsort]
        rfl
      have hdrop : (sort_group group).drop 1 = rest := by rw [hsort]; rfl
      have hpr_rest : pr ∈ rest := by
        rw [hsort] at hmem
        rcases List.mem_cons.mp hmem with hc | h
        · exact absurd (by rw [hc, hcan]) hne
        · exact h
      unfold collect_updates
      rw [hdrop]
      refine List.mem_flatMap.mpr ⟨pr, hpr_rest, ?_⟩
      rw [hlook]
      exact List.mem_map.mpr ⟨tid, htid, rfl⟩
  · intro group2 hperm2
    have h1 : 1 ≤ group.length := by omega
    have h1b : 1 ≤ group2.length := by rw [hperm2.length_eq]; omega
    obtain ⟨hm, hmin⟩ := canonical_cover_min group h1
    obtain ⟨hm2, hmin2⟩ := canonical_cover_min group2 h1b
    have hmapperm : (group2.map Prod.fst).Perm (group.map Prod.fst) := hperm2.map Prod.fst
    exact path_le_antisymm
      (hmin2 _ (hmapperm.mem_iff.mpr hm))
      (hmin _ (hmapperm.mem_iff.mp hm2))

/-- Witness for C6 at a concrete bucket of two byte-identical covers:
canonical is a.jpg, and tracks 2 and 3 (referencing b.jpg) are repointed. -/
theorem merge_canonical_witness :
    2 ≤ w_group.length ∧
    canonical_cover_of w_group = "a.jpg" ∧
    (canonical_cover_of w_group ∈ w_group.map Prod.fst ∧
      ∀ p ∈ w_group.map Prod.fst, path_le (canonical_cover_of w_group) p) ∧
    (2, "a.jpg") ∈ collect_updates w_fpt w_group ∧
    (3, "a.jpg") ∈ collect_updates w_fpt w_group := by
  have h := merge_canonical_is_lex_min_and_repoints w_fpt w_group (by decide)
  refine ⟨by decide, by decide, h.1, ?_, ?_⟩
  · have := h.2.1 ("b.jpg", 10) (by decide) (by decide) [2, 3] (by decide) 2 (by decide)
    simpa using this
  · have := h.2.1 ("b.jpg", 10) (by decide) (by decide) [2, 3] (by decide) 3 (by decide)
    simpa using this

theorem process_hash_group_begin_fail (env : MergeEnv) (fpt : List (String × List Int))
    (group : List (String × Nat)) (s : MergeState)
    (h2 : 2 ≤ group.length) (hup : collect_updates fpt group ≠ [])
    (hb : env.begin_fails s.tx_count = true) :
    process_hash_group env fpt group s
      = { s with errors := s.errors ++ ["Failed to create transaction: tx begin failed"],
                 tx_count := s.tx_count + 1 } := by
  unfold process_hash_group
  rw [if_neg (by omega : ¬ group.length < 2)]
  have hempty : (collect_updates fpt group).isEmpty = false := by
    cases h : collect_updates fpt group
    · exact absurd h hup
    · rfl
  simp only [hempty, Bool.false_eq_true, if_false, hb, if_true]

theorem process_hash_group_commit_fail (env : MergeEnv) (fpt : List (String × List Int))
    (group : List (String × Nat)) (s : MergeState)
    (h2 : 2 ≤ group.length) (hup : collect_updates fpt group ≠ [])
    (hb : env.begin_fails s.tx_count = false)
    (hc : env.commit_fails s.tx_count = true) :
    process_hash_group env fpt group s
      = { s with errors := s.errors ++ (apply_updates env s.db (collect_updates fpt group)).2
                   ++ ["Failed to commit transaction: tx commit failed"],
                 tx_count := s.tx_count + 1 } := by
  unfold process_hash_group
  rw [if_neg (by omega : ¬ group.length < 2)]
  have hempty : (collect_updates fpt group).isEmpty = false := by
    cases h : collect_updates fpt group
    · exact absurd h hup
    · rfl
  simp only [hempty, Bool.false_eq_true, if_false, hb, hc, if_true]

theorem delete_files_spec (env : MergeEnv) (files : List (String × Nat)) (s : MergeState) :
    (delete_files env files s).fs_deleted
      = s.fs_deleted ++ (files.filter
          (fun p => env.remove_file p.1 == RemoveResult.ok)).map Prod.fst
    ∧ (delete_files env files s).errors
      = s.errors ++ files.filterMap (fun p =>
          match env.remove_file p.1 with
          | .otherError e => some ("Failed to delete " ++ p.1 ++ ": " ++ e)
          | _ => none) := by
  induction files generalizing s with
  | nil => simp [delete_files]
  | cons p files ih =>
    have hstep : delete_files env (p :: files) s
        = delete_files env files (delete_file_step env s p) := by
      unfold delete_files
      rw [List.foldl_cons]
    rw [hstep]
    obtain ⟨ihd, ihe⟩ := ih (delete_file_step env s p)
    cases hrm : env.remove_file p.1 with
    | ok =>
      have hd : (delete_file_step env s p).fs_deleted = s.fs_deleted ++ [p.1] := by
        simp [delete_file_step, hrm]
      have he : (delete_file_step env s p).errors = s.errors := by
        simp [delete_file_step, hrm]
      rw [ihd, ihe, hd, he]
      constructor
      · simp [List.filter_cons, hrm]
      · simp [List.filterMap_cons, hrm]
    | notFound =>
      have hd : (delete_file_step env s p).fs_deleted = s.fs_deleted := by
        simp [delete_file_step, hrm]
      have he : (delete_file_step env s p).errors = s.errors := by
        simp [delete_file_step, hrm]
      rw [ihd, ihe, hd, he]
      constructor
      · simp [List.filter_cons, hrm]
      · simp [List.filterMap_cons, hrm]
    | otherError e =>
      have hd : (delete_file_step env s p).fs_deleted = s.fs_deleted := by
        simp [delete_file_step, hrm]
      have he : (delete_file_step env s p).errors
          = s.errors ++ ["Failed to delete " ++ p.1 ++ ": " ++ e] := by
        simp [delete_file_step, hrm]
      rw [ihd, ihe, hd, he]
      constructor
      · simp [List.filter_cons, hrm]
      · simp [List.filterMap_cons, hrm]

/-- C7: in merge_duplicate_covers, when the repointing transaction fails
to begin or to commit, the duplicate files of the in-flight set are left
on disk (fs_deleted and the store are unchanged, only the error is
recorded); and in the deletion loop a NotFound error is treated as success
and recorded nowhere, while any other deletion error is appended to the
error list and the loop still processes every remaining file. -/
theorem merge_deletes_only_after_commit :
    (∀ (env : MergeEnv) (fpt : List (String × List Int))
        (group : List (String × Nat)) (s : MergeState),
      2 ≤ group.length → collect_updates fpt group ≠ [] →
      env.begin_fails s.tx_count = true →
      (process_hash_group env fpt group s).fs_deleted = s.fs_deleted ∧
      (process_hash_group env fpt group s).db = s.db ∧
      (process_hash_group env fpt group s).errors
        = s.errors ++ ["Failed to create transaction: tx begin failed"])
    ∧ (∀ (env : MergeEnv) (fpt : List (String × List Int))
        (group : List (String × Nat)) (s : MergeState),
      2 ≤ group.length → collect_updates fpt group ≠ [] →
      env.begin_fails s.tx_count = false → env.commit_fails s.tx_count = true →
      (process_hash_group env fpt group s).fs_deleted = s.fs_deleted ∧
      (process_hash_group env fpt group s).db = s.db ∧
      (process_hash_group env fpt group s).errors
        = s.errors ++ (apply_updates env s.db (collect_updates fpt group)).2
            ++ ["Failed to commit transaction: tx commit failed"])
    ∧ (∀ (env : MergeEnv) (files : List (String × Nat)) (s : MergeState),
      (delete_files env files s).fs_deleted
        = s.fs_deleted ++ (files.filter
            (fun p => env.remove_file p.1 == RemoveResult.ok)).map Prod.fst ∧
      (delete_files env files s).errors
        = s.errors ++ files.filterMap (fun p =>
            match env.remove_file p.1 with
            | .otherError e => some ("Failed to delete " ++ p.1 ++ ": " ++ e)
            | _ => none)) := by
  refine ⟨?_, ?_, ?_⟩
  · intro env fpt group s h2 hup hb
    rw [process_hash_group_begin_fail env fpt group s h2 hup hb]
    exact ⟨rfl, rfl, rfl⟩
  · intro env fpt group s h2 hup hb hc
    rw [process_hash_group_commit_fail env fpt group s h2 hup hb hc]
    exact ⟨rfl, rfl, rfl⟩
  · intro env files s
    exact delete_files_spec env files s

/-- Witness for C7: a concrete duplicate set with a failing begin leaves
every file in place, and a concrete deletion loop with one failing
deletion records exactly that failure while deleting the other file. -/
theorem merge_deletes_only_after_commit_witness :
    (2 ≤ w_group.length ∧ collect_updates w_fpt w_group ≠ [] ∧
      w_merge_begin_fail.begin_fails w_merge_state.tx_count = true) ∧
    (process_hash_group w_merge_begin_fail w_fpt w_group w_merge_state).fs_deleted
      = w_merge_state.fs_deleted ∧
    (process_hash_group w_merge_begin_fail w_fpt w_group w_merge_state).db
      = w_merge_state.db ∧
    (delete_files w_merge_del_fail w_group w_merge_state).fs_deleted
      = w_merge_state.fs_deleted ++ ((w_group.filter
          (fun p => w_merge_del_fail.remove_file p.1 == RemoveResult.ok)).map Prod.fst) :=
  ⟨⟨by decide, by decide, by decide⟩,
    (merge_deletes_only_after_commit.1 w_merge_begin_fail w_fpt w_group w_merge_state
      (by decide) (by decide) (by decide)).1,
    (merge_deletes_only_after_commit.1 w_merge_begin_fail w_fpt w_group w_merge_state
      (by decide) (by decide) (by decide)).2.1,
    (merge_deletes_only_after_commit.2.2 w_merge_del_fail w_group w_merge_state).1⟩

/-- C3 counterexample: in migrate_covers_to_files a failed transaction
begin is an unwrap panic aborting the run with no summary at all, not a
recorded error with the run continuing (the claimed behavior exists only
in merge_duplicate_covers). -/
theorem migrate_transaction_failure_panics :
    migrate_covers_to_files ok_fs begin_fail_env 1000 one_good_track_db
      = MigrateOutcome.panicked := by
  decide

/-- C3 amended: in merge_duplicate_covers (not migrate_covers_to_files,
where begin/commit are unwrapped and panic), a failed begin or commit of a
duplicate-set transaction discards that set (its row updates are dropped
and its files stay on disk), appends the failure to the error list, and
the consumer continues with the next duplicate set. -/
theorem merge_transaction_failure_reported_and_continues
    (env : MergeEnv) (fpt : List (String × List Int))
    (group : List (String × Nat)) (gs : List (List (String × Nat))) (s : MergeState)
    (h2 : 2 ≤ group.length) (hup : collect_updates fpt group ≠ []) :
    (env.begin_fails s.tx_count = true →
      process_cover_groups env fpt (group :: gs) s
        = process_cover_groups env fpt gs
            { s with errors := s.errors ++ ["Failed to create transaction: tx begin failed"],
                     tx_count := s.tx_count + 1 })
    ∧ (env.begin_fails s.tx_count = false → env.commit_fails s.tx_count = true →
      process_cover_groups env fpt (group :: gs) s
        = process_cover_groups env fpt gs
            { s with errors := s.errors
                       ++ (apply_updates env s.db (collect_updates fpt group)).2
                       ++ ["Failed to commit transaction: tx commit failed"],
                     tx_count := s.tx_count + 1 }) := by
  constructor
  · intro hb
    unfold process_cover_groups
    rw [List.foldl_cons, process_hash_group_begin_fail env fpt group s h2 hup hb]
  · intro hb hc
    unfold process_cover_groups
    rw [List.foldl_cons, process_hash_group_commit_fail env fpt group s h2 hup hb hc]

/-- Witness for the amended C3 at a concrete duplicate set with a failing
begin: the error is recorded and the walk continues with the remaining
buckets. -/
theorem merge_transaction_failure_witness :
    (2 ≤ w_group.length ∧ collect_updates w_fpt w_group ≠ [] ∧
      w_merge_begin_fail.begin_fails w_merge_state.tx_count = true) ∧
    process_cover_groups w_merge_begin_fail w_fpt (w_group :: [[]]) w_merge_state
      = process_cover_groups w_merge_begin_fail w_fpt [[]]
          { w_merge_state with
              errors := w_merge_state.errors
                ++ ["Failed to create transaction: tx begin failed"],
              tx_count := w_merge_state.tx_count + 1 } :=
  ⟨⟨by decide, by decide, by decide⟩,
    (merge_transaction_failure_reported_and_continues w_merge_begin_fail w_fpt
      w_group [[]] w_merge_state (by decide) (by decide)).1 (by decide)⟩

/-! ### Batch processing lemmas -/

theorem process_result_track (env : DbEnv) (acc : BatchOutcome) (r : MigrationResult)
    (ht : r.item_type = "track") :
    process_result env acc r
      = if env.row_update_fails "track" r.id then
          { acc with errors := acc.errors
              ++ [row_update_error_msg "track" r.id "UPDATE failed"] }
        else
          { acc with db := db_set_track_cover_path acc.db r.id (some r.path),
                     tracks_migrated := acc.tracks_migrated + 1,
                     batch_items := acc.batch_items ++ [r] } := by
  by_cases hf : env.row_update_fails "track" r.id
  · simp [process_result, update_track_cover_path, ht, hf]
  · simp [process_result, update_track_cover_path, ht, hf]

theorem process_batch_tracks_spec (env : DbEnv) :
    ∀ (pending : List MigrationResult), (∀ r ∈ pending, r.item_type = "track") →
    ∀ acc : BatchOutcome,
      (pending.foldl (process_result env) acc).errors
        = acc.errors ++ (pending.filter
            (fun r => env.row_update_fails "track" r.id)).map
            (fun r => row_update_error_msg "track" r.id "UPDATE failed")
      ∧ (pending.foldl (process_result env) acc).batch_items
        = acc.batch_items ++ pending.filter (fun r => !env.row_update_fails "track" r.id)
      ∧ (pending.foldl (process_result env) acc).db
        = apply_track_updates acc.db
            (pending.filter (fun r => !env.row_update_fails "track" r.id)) := by
  intro pending
  induction pending with
  | nil => intro _ acc; simp [apply_track_updates]
  | cons r rest ih =>
    intro htrack acc
    have ht : r.item_type = "track" := htrack r (List.mem_cons_self r rest)
    have htr : ∀ x ∈ rest, x.item_type = "track" :=
      fun x hx => htrack x (List.mem_cons_of_mem r hx)
    rw [List.foldl_cons, process_result_track env acc r ht]
    by_cases hf : env.row_update_fails "track" r.id
    · rw [if_pos hf]
      obtain ⟨h1, h2, h3⟩ := ih htr
        { acc with errors := acc.errors
            ++ [row_update_error_msg "track" r.id "UPDATE failed"] }
      rw [h1, h2, h3]
      refine ⟨?_, ?_, ?_⟩
      · simp [List.filter_cons, hf, List.append_assoc]
      · simp [List.filter_cons, hf]
      · simp [List.filter_cons, hf]
    · rw [if_neg hf]
      obtain ⟨h1, h2, h3⟩ := ih htr
        { acc with db := db_set_track_cover_path acc.db r.id (some r.path),
                   tracks_migrated := acc.tracks_migrated + 1,
                   batch_items := acc.batch_items ++ [r] }
      rw [h1, h2, h3]
      have hnf : env.row_update_fails "track" r.id = false := by
        cases hx : env.row_update_fails "track" r.id
        · rfl
        · exact absurd hx hf
      refine ⟨?_, ?_, ?_⟩
      · simp [List.filter_cons, hnf]
      · simp [List.filter_cons, hnf, List.append_assoc]
      · simp [List.filter_cons, hnf, apply_track_updates]

theorem apply_track_updates_tracks (rs : List MigrationResult) :
    ∀ db : DbState, (apply_track_updates db rs).tracks
      = db.tracks.map (fun row => track_update_fold row rs) := by
  induction rs with
  | nil =>
    intro db
    simp [apply_track_updates, track_update_fold]
  | cons r rs ih =>
    intro db
    have h1 : apply_track_updates db (r :: rs)
        = apply_track_updates (db_set_track_cover_path db r.id (some r.path)) rs := by
      simp [apply_track_updates]
    rw [h1, ih]
    unfold db_set_track_cover_path
    rw [List.map_map]
    apply List.map_congr_left
    intro row _
    rfl

theorem track_update_row_id (row : TrackRow) (r : MigrationResult) :
    (track_update_row row r).id = row.id := by
  unfold track_update_row
  split <;> rfl

theorem track_update_fold_id (rs : List MigrationResult) :
    ∀ row : TrackRow, (track_update_fold row rs).id = row.id := by
  induction rs with
  | nil => intro row; rfl
  | cons r rs ih =>
    intro row
    have h : track_update_fold row (r :: rs)
        = track_update_fold (track_update_row row r) rs := rfl
    rw [h, ih, track_update_row_id]

theorem track_update_fold_not_mem (rs : List MigrationResult) :
    ∀ row : TrackRow, row.id ∉ rs.map (fun r => r.id) →
      track_update_fold row rs = row := by
  induction rs with
  | nil => intro row _; rfl
  | cons r rs ih =>
    intro row h
    have hne : row.id ≠ r.id := fun he =>
      h (by rw [List.map_cons, he]; exact List.mem_cons_self _ _)
    have hrest : row.id ∉ rs.map (fun r => r.id) := fun hc =>
      h (by rw [List.map_cons]; exact List.mem_cons_of_mem _ hc)
    have hstep : track_update_row row r = row := by
      unfold track_update_row
      rw [if_neg hne]
    have hd : track_update_fold row (r :: rs)
        = track_update_fold (track_update_row row r) rs := rfl
    rw [hd, hstep]
    exact ih row hrest

theorem track_update_fold_sets (rs : List MigrationResult) :
    ∀ (row : TrackRow) (r : MigrationResult), r ∈ rs →
      ((rs.map (fun x => x.id)).Nodup) → row.id = r.id →
      (track_update_fold row rs).track_cover_path = some r.path := by
  induction rs with
  | nil => intro row r hr; cases hr
  | cons a rs ih =>
    intro row r hr hnd hid
    have hd : track_update_fold row (a :: rs)
        = track_update_fold (track_update_row row a) rs := rfl
    rw [List.map_cons] at hnd
    obtain ⟨hhead, htail⟩ := List.nodup_cons.mp hnd
    rcases List.mem_cons.mp hr with rfl | hmem
    · have hstep : track_update_row row r
          = { row with track_cover_path := some r.path } := by
        unfold track_update_row
        rw [if_pos hid]
      rw [hd, hstep]
      have hout : ({ row with track_cover_path := some r.path } : TrackRow).id
          ∉ rs.map (fun x => x.id) := by
        show row.id ∉ _
        rw [hid]
        exact hhead
      rw [track_update_fold_not_mem rs _ hout]
    · have hne : row.id ≠ a.id := by
        intro he
        apply hhead
        rw [← he, hid]
        exact List.mem_map_of_mem _ hmem
      have hstep : track_update_row row a = row := by
        unfold track_update_row
        rw [if_neg hne]
      rw [hd, hstep]
      exact ih row r hmem htail hid

theorem length_filter_not_add {α : Type} (p : α → Bool) :
    ∀ l : List α, (l.filter (fun r => !p r)).length + (l.filter p).length = l.length := by
  intro l
  induction l with
  | nil => rfl
  | cons a l ih =>
    cases h : p a
    · simp only [List.filter_cons, h, Bool.not_false, if_pos, List.length_cons]
      simp only [Bool.false_eq_true, if_false]
      omega
    · simp only [List.filter_cons, h, Bool.not_true, Bool.false_eq_true, if_false,
        if_pos, List.length_cons]
      omega

theorem filter_fails_singleton (p : MigrationResult → Bool) :
    ∀ (l : List MigrationResult) (bad : MigrationResult), bad ∈ l →
      (l.map (fun r => r.id)).Nodup →
      (∀ r ∈ l, p r = true ↔ r.id = bad.id) →
      l.filter p = [bad] := by
  intro l
  induction l with
  | nil => intro bad h; cases h
  | cons a l ih =>
    intro bad hmem hnd hiff
    rw [List.map_cons] at hnd
    obtain ⟨hhead, htail⟩ := List.nodup_cons.mp hnd
    rcases List.mem_cons.mp hmem with rfl | hm
    · have ha : p bad = true := (hiff bad (List.mem_cons_self _ _)).mpr rfl
      rw [List.filter_cons_of_pos ha]
      have hrest : l.filter p = [] := by
        rw [List.filter_eq_nil_iff]
        intro r hr hfr
        have hrid := (hiff r (List.mem_cons_of_mem _ hr)).mp hfr
        exact hhead (hrid ▸ List.mem_map_of_mem _ hr)
      rw [hrest]
    · have hna : ¬ p a = true := by
        intro hfa
        have heq := (hiff a (List.mem_cons_self _ _)).mp hfa
        exact hhead (heq ▸ List.mem_map_of_mem (fun x => x.id) hm)
      rw [List.filter_cons_of_neg (by simpa using hna)]
      exact ih bad hm htail (fun r hr => hiff r (List.mem_cons_of_mem _ hr))

/-- C4: in a migrate_covers_to_files batch where exactly one row update
fails (all results track-typed, distinct ids, transaction engine healthy),
the batch still commits: exactly one error is recorded for the failed row,
N-1 items succeed, and every other row of the committed store carries its
new path. -/
theorem batch_partial_failure_isolated (env : DbEnv) (idx : Nat) (db : DbState)
    (pending : List MigrationResult) (bad : MigrationResult)
    (hbegin : env.begin_fails idx = false) (hcommit : env.commit_fails idx = false)
    (htrack : ∀ r ∈ pending, r.item_type = "track")
    (hbad : bad ∈ pending)
    (hfail : ∀ r ∈ pending, (env.row_update_fails "track" r.id = true ↔ r.id = bad.id))
    (hnodup : (pending.map (fun r => r.id)).Nodup) :
    ∃ out, batch_transaction env idx db pending = some out ∧
      out.errors = [row_update_error_msg "track" bad.id "UPDATE failed"] ∧
      out.batch_items.length = pending.length - 1 ∧
      ∀ r ∈ pending, r.id ≠ bad.id →
        ∀ row ∈ out.db.tracks, row.id = r.id →
          row.track_cover_path = some r.path := by
  have hout : batch_transaction env idx db pending
      = some (process_batch env db pending) := by
    unfold batch_transaction
    rw [if_neg (by simp [hbegin]), if_neg (by simp [hcommit])]
  obtain ⟨h1, h2, h3⟩ := process_batch_tracks_spec env pending htrack
    { db := db, tracks_migrated := 0, albums_migrated := 0, errors := [],
      batch_items := [] }
  have hsingle : pending.filter (fun r => env.row_update_fails "track" r.id) = [bad] :=
    filter_fails_singleton _ pending bad hbad hnodup hfail
  refine ⟨process_batch env db pending, hout, ?_, ?_, ?_⟩
  · show (pending.foldl (process_result env) _).errors = _
    rw [h1, hsingle]
    simp
  · show (pending.foldl (process_result env) _).batch_items.length = _
    rw [h2]
    have hpart := length_filter_not_add (fun r => env.row_update_fails "track" r.id) pending
    rw [hsingle] at hpart
    simp only [List.length_cons, List.length_nil] at hpart
    simp only [List.nil_append]
    omega
  · intro r hr hne row hrow hid
    have hnf : env.row_update_fails "track" r.id = false := by
      cases hx : env.row_update_fails "track" r.id
      · rfl
      · exact absurd ((hfail r hr).mp hx) hne
    have hrgood : r ∈ pending.filter (fun r => !env.row_update_fails "track" r.id) :=
      List.mem_filter.mpr ⟨hr, by simp [hnf]⟩
    have hgoodnd : ((pending.filter
        (fun r => !env.row_update_fails "track" r.id)).map (fun x => x.id)).Nodup := by
      have hsub : (pending.filter (fun r => !env.row_update_fails "track" r.id)).Sublist
          pending := List.filter_sublist pending
      exact (hsub.map (fun x => x.id)).nodup hnodup
    have hdb : (process_batch env db pending).db
        = apply_track_updates db
            (pending.filter (fun r => !env.row_update_fails "track" r.id)) := h3
    rw [hdb, apply_track_updates_tracks] at hrow
    rcases List.mem_map.mp hrow with ⟨row0, hrow0, rfl⟩
    have hid0 : row0.id = r.id := by
      rw [← track_update_fold_id (pending.filter
        (fun r => !env.row_update_fails "track" r.id)) row0]
      exact hid
    exact track_update_fold_sets _ row0 r hrgood hgoodnd hid0

/-- Witness for C4: a three-row batch where only the update of track 2
fails commits with one recorded error, two successes, and the paths of
tracks 1 and 3 visible in the store. -/
theorem batch_partial_failure_isolated_witness :
    (bad_row_env.begin_fails 0 = false ∧ bad_row_env.commit_fails 0 = false ∧
      (∀ r ∈ three_results, r.item_type = "track") ∧
      ({ id := 2, path := "p2", item_type := "track" } : MigrationResult) ∈ three_results ∧
      (∀ r ∈ three_results, (bad_row_env.row_update_fails "track" r.id = true ↔ r.id = 2)) ∧
      ((three_results.map (fun r => r.id)).Nodup)) ∧
    (∃ out, batch_transaction bad_row_env 0 three_track_db three_results = some out ∧
      out.errors = [row_update_error_msg "track" 2 "UPDATE failed"] ∧
      out.batch_items.length = three_results.length - 1 ∧
      ∀ r ∈ three_results, r.id ≠ 2 →
        ∀ row ∈ out.db.tracks, row.id = r.id →
          row.track_cover_path = some r.path) :=
  ⟨⟨by decide, by decide, by decide, by decide, by decide, by decide⟩,
    batch_partial_failure_isolated bad_row_env 0 three_track_db three_results
      { id := 2, path := "p2", item_type := "track" }
      (by decide) (by decide) (by decide) (by decide) (by decide) (by decide)⟩

/-! ### Transform-failure bookkeeping (C2) -/

/-- C2 counterexample: a failed transform is dropped by `.ok()` before the
channel, and with it in the work list the run never produces a terminal
summary at any fuel, so the failure cannot appear in any summary error
list. -/
theorem transform_failure_not_in_any_summary :
    transform_item bad_fs (MigrationWorkItem.Track 1 "!!!") = none ∧
    ¬ ∃ (fuel : Nat) (p : MigrationProgress) (db2 : DbState),
        migrate_covers_to_files bad_fs benign_db_env fuel one_bad_track_db
          = MigrateOutcome.ok p db2 := by
  refine ⟨rfl, ?_⟩
  rintro ⟨fuel, p, db2, h⟩
  cases fuel with
  | zero =>
    rw [show migrate_covers_to_files bad_fs benign_db_env 0 one_bad_track_db
        = MigrateOutcome.outOfFuel by decide] at h
    cases h
  | succ n =>
    rw [migrate_bad_track_hangs n] at h
    cases h

theorem process_result_errors (env : DbEnv) (acc : BatchOutcome) (r : MigrationResult) :
    ∀ e ∈ (process_result env acc r).errors, e ∈ acc.errors ∨ IsRowUpdateError e := by
  intro e he
  unfold process_result at he
  dsimp only at he
  cases hur : (if r.item_type = "track" then
      update_track_cover_path env acc.db r.id (some r.path)
    else update_album_art_path env acc.db r.id (some r.path)) with
  | ok db2 =>
    rw [hur] at he
    dsimp only at he
    by_cases ht : r.item_type = "track"
    · rw [if_pos ht] at he
      exact Or.inl he
    · rw [if_neg ht] at he
      exact Or.inl he
  | error msg =>
    rw [hur] at he
    dsimp only at he
    rcases List.mem_append.mp he with h1 | h2
    · exact Or.inl h1
    · rw [List.mem_singleton.mp h2]
      exact Or.inr ⟨r.item_type, r.id, msg, rfl⟩

theorem foldl_process_result_errors (env : DbEnv) :
    ∀ (pending : List MigrationResult) (acc : BatchOutcome),
      ∀ e ∈ (pending.foldl (process_result env) acc).errors,
        e ∈ acc.errors ∨ IsRowUpdateError e := by
  intro pending
  induction pending with
  | nil => intro acc e he; exact Or.inl he
  | cons r rest ih =>
    intro acc e he
    rw [List.foldl_cons] at he
    rcases ih (process_result env acc r) e he with h1 | h2
    · exact process_result_errors env acc r e h1
    · exact Or.inr h2

theorem batch_transaction_errors (env : DbEnv) (idx : Nat) (db : DbState)
    (pending : List MigrationResult) (out : BatchOutcome)
    (h : batch_transaction env idx db pending = some out) :
    ∀ e ∈ out.errors, IsRowUpdateError e := by
  unfold batch_transaction at h
  by_cases hb : env.begin_fails idx
  · rw [if_pos hb] at h
    cases h
  · rw [if_neg hb] at h
    by_cases hcm : env.commit_fails idx
    · rw [if_pos hcm] at h
      cases h
    · rw [if_neg hcm] at h
      cases h
      intro e he
      rcases foldl_process_result_errors env pending _ e he with h1 | h2
      · simp at h1
      · exact h2

theorem run_batch_loop_errors (env : DbEnv) (extracted total : Nat) :
    ∀ (fuel : Nat) (s s2 : AssemblerState),
      run_batch_loop env extracted total fuel s = RunResult.finished s2 →
      ∀ e ∈ s2.errors, e ∈ s.errors ∨ IsRowUpdateError e := by
  intro fuel
  induction fuel with
  | zero => intro s s2 h; cases h
  | succ n ih =>
    intro s s2 h e he
    unfold run_batch_loop at h
    dsimp only at h
    cases hc : collect_batch extracted total
        (calculate_batch_size s.items_sent total s.channel.length) s.channel with
    | none => rw [hc] at h; cases h
    | some pr =>
      rw [hc] at h
      obtain ⟨pending, rest⟩ := pr
      dsimp only at h
      by_cases hemp : pending.isEmpty
      · rw [if_pos hemp] at h
        cases h
        exact Or.inl he
      · rw [if_neg hemp] at h
        cases hbt : batch_transaction env s.batches_sent s.db pending with
        | none => rw [hbt] at h; cases h
        | some out =>
          rw [hbt] at h
          dsimp only at h
          have hout := batch_transaction_errors env s.batches_sent s.db pending out hbt
          by_cases hterm : total ≤ s.items_sent + out.batch_items.length
          · rw [if_pos hterm] at h
            cases h
            rcases List.mem_append.mp he with h1 | h2
            · exact Or.inl h1
            · exact Or.inr (hout e h2)
          · rw [if_neg hterm] at h
            rcases ih _ s2 h e he with h1 | h2
            · rcases List.mem_append.mp h1 with h3 | h4
              · exact Or.inl h3
              · exact Or.inr (hout e h4)
            · exact Or.inr h2

theorem migrate_errors_only_row_updates (fs : FsEnv) (env : DbEnv) (fuel : Nat)
    (db : DbState) (p : MigrationProgress) (db2 : DbState)
    (h : migrate_covers_to_files fs env fuel db = MigrateOutcome.ok p db2) :
    ∀ e ∈ p.errors, IsRowUpdateError e := by
  unfold migrate_covers_to_files at h
  dsimp only at h
  by_cases htot : (enumerate_tracks db).length + (enumerate_albums db).length = 0
  · rw [if_pos htot] at h
    cases h
    intro e he
    simp at he
  · rw [if_neg htot] at h
    cases hrun : run_batch_loop env
        (producer_phase fs (migration_work_items db)).2
        ((enumerate_tracks db).length + (enumerate_albums db).length) fuel
        { channel := (producer_phase fs (migration_work_items db)).1, db := db,
          tracks_migrated := 0, albums_migrated := 0, items_sent := 0,
          batches_sent := 0, errors := [] } with
    | finished s =>
      rw [hrun] at h
      cases h
      intro e he
      rcases run_batch_loop_errors env _ _ fuel _ s hrun e he with h1 | h2
      · simp at h1
      · exact h2
    | hung => rw [hrun] at h; cases h
    | panicked => rw [hrun] at h; cases h
    | outOfFuel => rw [hrun] at h; cases h

/-- C2 amended: a work item whose transform fails is skipped and appears
nowhere downstream (removing it from the work list changes neither the
channel contents nor the extracted count), and its failure is silently
dropped rather than recorded: every error of any terminal summary is a
row-path-update error. (Moreover, per the counterexample, a run containing
a transform failure never reaches a terminal summary at all.) -/
theorem transform_failures_silently_dropped :
    (∀ (fs : FsEnv) (item : MigrationWorkItem)
        (items1 items2 : List MigrationWorkItem),
      transform_item fs item = none →
      producer_phase fs (items1 ++ item :: items2)
        = producer_phase fs (items1 ++ items2))
    ∧ (∀ (fs : FsEnv) (env : DbEnv) (fuel : Nat) (db : DbState)
        (p : MigrationProgress) (db2 : DbState),
      migrate_covers_to_files fs env fuel db = MigrateOutcome.ok p db2 →
      ∀ e ∈ p.errors, IsRowUpdateError e) := by
  constructor
  · intro fs item items1 items2 h
    unfold producer_phase
    rw [List.filterMap_append, List.filterMap_append, List.filterMap_cons, h]
  · exact migrate_errors_only_row_updates

/-- Witness for the amended C2: dropping a concrete failing item leaves
the producer output unchanged, and a concrete completed run whose only
failure is a row update carries exactly that row-update error. -/
theorem transform_failures_silently_dropped_witness :
    (transform_item bad_fs (MigrationWorkItem.Track 1 "!!!") = none ∧
      producer_phase bad_fs
        ([] ++ MigrationWorkItem.Track 1 "!!!" :: [MigrationWorkItem.Track 2 "AA"])
        = producer_phase bad_fs ([] ++ [MigrationWorkItem.Track 2 "AA"])) ∧
    (migrate_covers_to_files ok_fs bad_row_env 5 three_track_db
      = MigrateOutcome.ok w_run_summary w_run_db) ∧
    ∀ e ∈ w_run_summary.errors, IsRowUpdateError e := by
  refine ⟨⟨by decide, ?_⟩, ?_, ?_⟩
  · exact transform_failures_silently_dropped.1 bad_fs
      (MigrationWorkItem.Track 1 "!!!") [] [MigrationWorkItem.Track 2 "AA"] (by decide)
  · decide
  · exact transform_failures_silently_dropped.2 ok_fs bad_row_env 5 three_track_db
      w_run_summary w_run_db (by decide)

/-! ### Benign-run lemmas (C8) -/

theorem process_result_benign (env : DbEnv)
    (hrow : ∀ t i, env.row_update_fails t i = false)
    (acc : BatchOutcome) (r : MigrationResult) :
    process_result env acc r
      = { acc with db := apply_result acc.db r,
                   tracks_migrated := if r.item_type = "track"
                     then acc.tracks_migrated + 1 else acc.tracks_migrated,
                   albums_migrated := if r.item_type = "track"
                     then acc.albums_migrated else acc.albums_migrated + 1,
                   batch_items := acc.batch_items ++ [r] } := by
  by_cases ht : r.item_type = "track"
  · simp [process_result, update_track_cover_path, hrow, ht, apply_result]
  · simp [process_result, update_album_art_path, hrow, ht, apply_result]

theorem process_batch_benign (env : DbEnv)
    (hrow : ∀ t i, env.row_update_fails t i = false) :
    ∀ (pending : List MigrationResult) (acc : BatchOutcome),
      (pending.foldl (process_result env) acc).errors = acc.errors
      ∧ (pending.foldl (process_result env) acc).batch_items
          = acc.batch_items ++ pending
      ∧ (pending.foldl (process_result env) acc).db = apply_results acc.db pending := by
  intro pending
  induction pending with
  | nil => intro acc; exact ⟨rfl, (List.append_nil _).symm, rfl⟩
  | cons r rest ih =>
    intro acc
    rw [List.foldl_cons, process_result_benign env hrow acc r]
    obtain ⟨h1, h2, h3⟩ := ih
      { acc with db := apply_result acc.db r,
                 tracks_migrated := if r.item_type = "track"
                   then acc.tracks_migrated + 1 else acc.tracks_migrated,
                 albums_migrated := if r.item_type = "track"
                   then acc.albums_migrated else acc.albums_migrated + 1,
                 batch_items := acc.batch_items ++ [r] }
    refine ⟨h1, ?_, ?_⟩
    · rw [h2]
      simp
    · rw [h3]
      rfl

theorem process_batch_benign_spec (env : DbEnv)
    (hrow : ∀ t i, env.row_update_fails t i = false)
    (db : DbState) (pending : List MigrationResult) :
    (process_batch env db pending).errors = []
    ∧ (process_batch env db pending).batch_items = pending
    ∧ (process_batch env db pending).db = apply_results db pending := by
  obtain ⟨h1, h2, h3⟩ := process_batch_benign env hrow pending
    { db := db, tracks_migrated := 0, albums_migrated := 0, errors := [],
      batch_items := [] }
  exact ⟨h1, by simpa using h2, h3⟩

theorem apply_results_append (db : DbState) (l1 l2 : List MigrationResult) :
    apply_results db (l1 ++ l2) = apply_results (apply_results db l1) l2 := by
  unfold apply_results
  exact List.foldl_append apply_result db l1 l2

theorem run_batch_loop_benign (env : DbEnv) (total : Nat)
    (hrow : ∀ t i, env.row_update_fails t i = false)
    (hbegin : ∀ n, env.begin_fails n = false)
    (hcommit : ∀ n, env.commit_fails n = false) :
    ∀ (fuel : Nat) (s : AssemblerState),
      s.channel.length < fuel →
      s.items_sent + s.channel.length = total →
      ∃ s2, run_batch_loop env total total fuel s = RunResult.finished s2
        ∧ s2.db = apply_results s.db s.channel
        ∧ s2.errors = s.errors := by
  intro fuel
  induction fuel with
  | zero =>
    intro s h1 h2
    exact absurd h1 (by omega)
  | succ n ih =>
    intro s hlen hinv
    have hbs20 := (calculate_batch_size_bounds s.items_sent total s.channel.length).1
    by_cases hch : s.channel.length = 0
    · have hch0 : s.channel = [] := List.length_eq_zero.mp hch
      refine ⟨s, ?_, by rw [hch0]; rfl, rfl⟩
      unfold run_batch_loop
      dsimp only
      have hcb : collect_batch total total
          (calculate_batch_size s.items_sent total s.channel.length) s.channel
          = some (s.channel, []) := by
        unfold collect_batch
        rw [if_neg (by omega), if_pos (le_refl total)]
      rw [hcb]
      dsimp only
      rw [if_pos (by rw [hch0]; rfl)]
    · have hkex : ∃ k, 1 ≤ k ∧ k ≤ s.channel.length ∧
          collect_batch total total
            (calculate_batch_size s.items_sent total s.channel.length) s.channel
            = some (s.channel.take k, s.channel.drop k) := by
        by_cases hble : calculate_batch_size s.items_sent total s.channel.length
            ≤ s.channel.length
        · exact ⟨calculate_batch_size s.items_sent total s.channel.length,
            by omega, hble, by unfold collect_batch; rw [if_pos hble]⟩
        · refine ⟨s.channel.length, by omega, le_refl _, ?_⟩
          unfold collect_batch
          rw [if_neg hble, if_pos (le_refl total), List.take_length, List.drop_length]
      obtain ⟨k, hk1, hkle, hcb⟩ := hkex
      have hpend_len : (s.channel.take k).length = k := by
        rw [List.length_take]
        omega
      have hpend_ne : (s.channel.take k).isEmpty = false := by
        cases hx : s.channel.take k with
        | nil =>
          rw [hx] at hpend_len
          simp at hpend_len
          omega
        | cons a l => rfl
      have hbt : batch_transaction env s.batches_sent s.db (s.channel.take k)
          = some (process_batch env s.db (s.channel.take k)) := by
        unfold batch_transaction
        rw [if_neg (by simp [hbegin]), if_neg (by simp [hcommit])]
      obtain ⟨hoe, hob, hod⟩ := process_batch_benign_spec env hrow s.db (s.channel.take k)
      unfold run_batch_loop
      dsimp only
      rw [hcb]
      dsimp only
      rw [hpend_ne]
      simp only [Bool.false_eq_true, if_false]
      rw [hbt]
      dsimp only
      rw [hob, hpend_len, hod, hoe, List.append_nil]
      by_cases hterm : total ≤ s.items_sent + k
      · rw [if_pos hterm]
        have htake : s.channel.take k = s.channel := by
          have hkeq : k = s.channel.length := by omega
          rw [hkeq]
          exact List.take_length s.channel
        refine ⟨_, rfl, ?_, rfl⟩
        dsimp only
        rw [htake]
      · rw [if_neg hterm]
        have hlen2 : (s.channel.drop k).length < n := by
          rw [List.length_drop]
          omega
        have hinv2 : (s.items_sent + k) + (s.channel.drop k).length = total := by
          rw [List.length_drop]
          omega
        obtain ⟨s3, hrun3, hdb3, herr3⟩ := ih
          { channel := s.channel.drop k,
            db := apply_results s.db (s.channel.take k),
            tracks_migrated := s.tracks_migrated
              + (process_batch env s.db (s.channel.take k)).tracks_migrated,
            albums_migrated := s.albums_migrated
              + (process_batch env s.db (s.channel.take k)).albums_migrated,
            items_sent := s.items_sent + k,
            batches_sent := s.batches_sent + 1,
            errors := s.errors }
          (by dsimp only; exact hlen2) (by dsimp only; exact hinv2)
        refine ⟨s3, hrun3, ?_, herr3⟩
        rw [hdb3]
        dsimp only
        rw [← apply_results_append, List.take_append_drop]

theorem apply_result_tracks (db : DbState) (r : MigrationResult) :
    (apply_result db r).tracks = db.tracks.map (fun row => track_row_step row r) := by
  by_cases h : r.item_type = "track" <;>
    simp [apply_result, track_row_step, track_update_row, db_set_track_cover_path,
      db_set_album_art_path, h]

theorem apply_result_albums (db : DbState) (r : MigrationResult) :
    (apply_result db r).albums = db.albums.map (fun row => album_row_step row r) := by
  by_cases h : r.item_type = "track" <;>
    simp [apply_result, album_row_step, db_set_track_cover_path,
      db_set_album_art_path, h]

theorem apply_results_tracks (rs : List MigrationResult) :
    ∀ db : DbState, (apply_results db rs).tracks
      = db.tracks.map (fun row => track_row_fold row rs) := by
  induction rs with
  | nil =>
    intro db
    simp [apply_results, track_row_fold]
  | cons r rs ih =>
    intro db
    have h1 : apply_results db (r :: rs) = apply_results (apply_result db r) rs := rfl
    rw [h1, ih, apply_result_tracks, List.map_map]
    apply List.map_congr_left
    intro row _
    rfl

theorem apply_results_albums (rs : List MigrationResult) :
    ∀ db : DbState, (apply_results db rs).albums
      = db.albums.map (fun row => album_row_fold row rs) := by
  induction rs with
  | nil =>
    intro db
    simp [apply_results, album_row_fold]
  | cons r rs ih =>
    intro db
    have h1 : apply_results db (r :: rs) = apply_results (apply_result db r) rs := rfl
    rw [h1, ih, apply_result_albums, List.map_map]
    apply List.map_congr_left
    intro row _
    rfl

theorem track_row_step_id (row : TrackRow) (r : MigrationResult) :
    (track_row_step row r).id = row.id := by
  unfold track_row_step
  split
  · exact track_update_row_id row r
  · rfl

theorem track_row_step_cover (row : TrackRow) (r : MigrationResult) :
    (track_row_step row r).track_cover = row.track_cover := by
  unfold track_row_step track_update_row
  split
  · split <;> rfl
  · rfl

theorem track_row_fold_cover (rs : List MigrationResult) :
    ∀ row : TrackRow, (track_row_fold row rs).track_cover = row.track_cover := by
  induction rs with
  | nil => intro row; rfl
  | cons r rs ih =>
    intro row
    have h : track_row_fold row (r :: rs)
        = track_row_fold (track_row_step row r) rs := rfl
    rw [h, ih, track_row_step_cover]

theorem track_row_step_path_mono (row : TrackRow) (r : MigrationResult)
    (h : row.track_cover_path.isSome) :
    (track_row_step row r).track_cover_path.isSome := by
  unfold track_row_step track_update_row
  split
  · split
    · simp
    · exact h
  · exact h

theorem track_row_fold_path_mono (rs : List MigrationResult) :
    ∀ row : TrackRow, row.track_cover_path.isSome →
      (track_row_fold row rs).track_cover_path.isSome := by
  induction rs with
  | nil => intro row h; exact h
  | cons r rs ih =>
    intro row h
    have hd : track_row_fold row (r :: rs)
        = track_row_fold (track_row_step row r) rs := rfl
    rw [hd]
    exact ih _ (track_row_step_path_mono row r h)

theorem track_row_fold_path_some (rs : List MigrationResult) :
    ∀ (row : TrackRow) (r : MigrationResult), r ∈ rs →
      r.item_type = "track" → r.id = row.id →
      (track_row_fold row rs).track_cover_path.isSome := by
  induction rs with
  | nil => intro row r h; cases h
  | cons a rs ih =>
    intro row r hr ht hid
    have hd : track_row_fold row (a :: rs)
        = track_row_fold (track_row_step row a) rs := rfl
    rw [hd]
    rcases List.mem_cons.mp hr with rfl | hmem
    · have hstep : (track_row_step row r).track_cover_path.isSome := by
        unfold track_row_step track_update_row
        rw [if_pos ht, if_pos hid.symm]
        simp
      exact track_row_fold_path_mono rs _ hstep
    · exact ih (track_row_step row a) r hmem ht (by rw [track_row_step_id]; exact hid)

theorem album_row_step_id (row : AlbumRow) (r : MigrationResult) :
    (album_row_step row r).id = row.id := by
  unfold album_row_step
  split
  · rfl
  · split <;> rfl

theorem album_row_step_art (row : AlbumRow) (r : MigrationResult) :
    (album_row_step row r).art_data = row.art_data := by
  unfold album_row_step
  split
  · rfl
  · split <;> rfl

theorem album_row_fold_art (rs : List MigrationResult) :
    ∀ row : AlbumRow, (album_row_fold row rs).art_data = row.art_data := by
  induction rs with
  | nil => intro row; rfl
  | cons r rs ih =>
    intro row
    have h : album_row_fold row (r :: rs)
        = album_row_fold (album_row_step row r) rs := rfl
    rw [h, ih, album_row_step_art]

theorem album_row_step_path_mono (row : AlbumRow) (r : MigrationResult)
    (h : row.art_path.isSome) :
    (album_row_step row r).art_path.isSome := by
  unfold album_row_step
  split
  · exact h
  · split
    · simp
    · exact h

theorem album_row_fold_path_mono (rs : List MigrationResult) :
    ∀ row : AlbumRow, row.art_path.isSome →
      (album_row_fold row rs).art_path.isSome := by
  induction rs with
  | nil => intro row h; exact h
  | cons r rs ih =>
    intro row h
    have hd : album_row_fold row (r :: rs)
        = album_row_fold (album_row_step row r) rs := rfl
    rw [hd]
    exact ih _ (album_row_step_path_mono row r h)

theorem album_row_fold_path_some (rs : List MigrationResult) :
    ∀ (row : AlbumRow) (r : MigrationResult), r ∈ rs →
      r.item_type = "album" → r.id = row.id →
      (album_row_fold row rs).art_path.isSome := by
  induction rs with
  | nil => intro row r h; cases h
  | cons a rs ih =>
    intro row r hr ht hid
    have hd : album_row_fold row (a :: rs)
        = album_row_fold (album_row_step row a) rs := rfl
    rw [hd]
    rcases List.mem_cons.mp hr with rfl | hmem
    · have hstep : (album_row_step row r).art_path.isSome := by
        unfold album_row_step
        rw [if_neg (by rw [ht]; decide), if_pos hid.symm]
        simp
      exact album_row_fold_path_mono rs _ hstep
    · exact ih (album_row_step row a) r hmem ht (by rw [album_row_step_id]; exact hid)

theorem enumerate_tracks_eq_nil (db : DbState)
    (h : ∀ row ∈ db.tracks, row.track_cover.isSome → row.track_cover_path.isSome) :
    enumerate_tracks db = [] := by
  unfold enumerate_tracks
  rw [List.filterMap_eq_nil_iff]
  intro row hrow
  cases hc : row.track_cover with
  | none => simp [hc]
  | some d =>
    cases hp : row.track_cover_path with
    | some q => simp [hc, hp]
    | none =>
      have hs := h row hrow (by rw [hc]; rfl)
      rw [hp] at hs
      simp at hs

theorem enumerate_albums_eq_nil (db : DbState)
    (h : ∀ row ∈ db.albums, row.art_data.isSome → row.art_path.isSome) :
    enumerate_albums db = [] := by
  unfold enumerate_albums
  rw [List.filterMap_eq_nil_iff]
  intro row hrow
  cases hc : row.art_data with
  | none => simp [hc]
  | some d =>
    cases hp : row.art_path with
    | some q => simp [hc, hp]
    | none =>
      have hs := h row hrow (by rw [hc]; rfl)
      rw [hp] at hs
      simp at hs

theorem transform_track_shape (fs : FsEnv) (i : Int) (d : String)
    (h : (transform_item fs (MigrationWorkItem.Track i d)).isSome) :
    ∃ path, transform_item fs (MigrationWorkItem.Track i d)
      = some { id := i, path := path, item_type := "track" } := by
  unfold transform_item at *
  dsimp only at h ⊢
  cases hs : save_track_cover_from_base64 fs i d with
  | ok p => exact ⟨p, rfl⟩
  | error e =>
    rw [hs] at h
    simp [Except.toOption] at h

theorem transform_album_shape (fs : FsEnv) (i : Int) (d : String)
    (h : (transform_item fs (MigrationWorkItem.Album i d)).isSome) :
    ∃ path, transform_item fs (MigrationWorkItem.Album i d)
      = some { id := i, path := path, item_type := "album" } := by
  unfold transform_item at *
  dsimp only at h ⊢
  cases hs : save_album_art_from_base64 fs i d with
  | ok p => exact ⟨p, rfl⟩
  | error e =>
    rw [hs] at h
    simp [Except.toOption] at h

theorem filterMap_all_some_length (fs : FsEnv) :
    ∀ items : List MigrationWorkItem,
      (∀ i ∈ items, (transform_item fs i).isSome) →
      (items.filterMap (transform_item fs)).length = items.length := by
  intro items
  induction items with
  | nil => intro _; rfl
  | cons a items ih =>
    intro h
    have ha := h a (List.mem_cons_self _ _)
    cases hx : transform_item fs a with
    | none =>
      rw [hx] at ha
      simp at ha
    | some r =>
      rw [List.filterMap_cons, hx]
      simp only [List.length_cons]
      rw [ih (fun i hi => h i (List.mem_cons_of_mem _ hi))]

theorem track_work_item_mem (db : DbState) (row : TrackRow) (d : String)
    (hrow : row ∈ db.tracks) (hc : row.track_cover = some d)
    (hp : row.track_cover_path = none) :
    MigrationWorkItem.Track row.id d ∈ migration_work_items db := by
  unfold migration_work_items
  apply List.mem_append_left
  apply List.mem_map.mpr
  refine ⟨(row.id, d), ?_, rfl⟩
  unfold enumerate_tracks
  exact List.mem_filterMap.mpr ⟨row, hrow, by simp [hc, hp]⟩

theorem album_work_item_mem (db : DbState) (row : AlbumRow) (d : String)
    (hrow : row ∈ db.albums) (hc : row.art_data = some d)
    (hp : row.art_path = none) :
    MigrationWorkItem.Album row.id d ∈ migration_work_items db := by
  unfold migration_work_items
  apply List.mem_append_right
  apply List.mem_map.mpr
  refine ⟨(row.id, d), ?_, rfl⟩
  unfold enumerate_albums
  exact List.mem_filterMap.mpr ⟨row, hrow, by simp [hc, hp]⟩

/-- C8: with every transform succeeding and a healthy storage engine, one
run of migrate_covers_to_files sets the path column of every enumerated
row, so a second run over the resulting store enumerates nothing and
returns the summary {total 0, processed 0, no errors} without touching the
store, at any fuel. -/
theorem migration_idempotent (fs : FsEnv) (env : DbEnv) (db : DbState) (fuel : Nat)
    (hok : ∀ i ∈ migration_work_items db, (transform_item fs i).isSome)
    (hrow : ∀ t i, env.row_update_fails t i = false)
    (hbegin : ∀ n, env.begin_fails n = false)
    (hcommit : ∀ n, env.commit_fails n = false)
    (hfuel : (enumerate_tracks db).length + (enumerate_albums db).length < fuel) :
    ∃ p db1, migrate_covers_to_files fs env fuel db = MigrateOutcome.ok p db1
      ∧ ∀ fuel2, migrate_covers_to_files fs env fuel2 db1
          = MigrateOutcome.ok
              { total := 0, processed := 0, tracks_migrated := 0,
                albums_migrated := 0, errors := [] } db1 := by
  by_cases htot : (enumerate_tracks db).length + (enumerate_albums db).length = 0
  · refine ⟨({ total := 0, processed := 0, tracks_migrated := 0,
               albums_migrated := 0, errors := [] } : MigrationProgress), db, ?_, ?_⟩
    · unfold migrate_covers_to_files
      dsimp only
      rw [if_pos htot]
    · intro fuel2
      unfold migrate_covers_to_files
      dsimp only
      rw [if_pos htot]
  · have hslen : ((producer_phase fs (migration_work_items db)).1).length
        = (enumerate_tracks db).length + (enumerate_albums db).length := by
      show ((migration_work_items db).filterMap (transform_item fs)).length = _
      rw [filterMap_all_some_length fs _ hok]
      simp [migration_work_items]
    have hext : (producer_phase fs (migration_work_items db)).2
        = (enumerate_tracks db).length + (enumerate_albums db).length := hslen
    obtain ⟨s2, hrun, hdb2, herr2⟩ := run_batch_loop_benign env
      ((enumerate_tracks db).length + (enumerate_albums db).length)
      hrow hbegin hcommit fuel
      { channel := (producer_phase fs (migration_work_items db)).1, db := db,
        tracks_migrated := 0, albums_migrated := 0, items_sent := 0,
        batches_sent := 0, errors := [] }
      (by dsimp only; omega) (by dsimp only; omega)
    have hdb1 : s2.db
        = apply_results db (producer_phase fs (migration_work_items db)).1 := hdb2
    have htr : enumerate_tracks s2.db = [] := by
      apply enumerate_tracks_eq_nil
      intro row2 hrow2 hcov2
      rw [hdb1, apply_results_tracks] at hrow2
      rcases List.mem_map.mp hrow2 with ⟨row0, hrow0, rfl⟩
      rw [track_row_fold_cover] at hcov2
      cases hp0 : row0.track_cover_path with
      | some q => exact track_row_fold_path_mono _ row0 (by rw [hp0]; rfl)
      | none =>
        obtain ⟨d, hd⟩ := Option.isSome_iff_exists.mp hcov2
        have hmem := track_work_item_mem db row0 d hrow0 hd hp0
        have hsome := hok _ hmem
        obtain ⟨path, hpath⟩ := transform_track_shape fs row0.id d hsome
        have hrmem : ({ id := row0.id, path := path, item_type := "track" }
            : MigrationResult) ∈ (producer_phase fs (migration_work_items db)).1 :=
          List.mem_filterMap.mpr ⟨_, hmem, hpath⟩
        exact track_row_fold_path_some _ row0 _ hrmem rfl rfl
    have hal : enumerate_albums s2.db = [] := by
      apply enumerate_albums_eq_nil
      intro row2 hrow2 hcov2
      rw [hdb1, apply_results_albums] at hrow2
      rcases List.mem_map.mp hrow2 with ⟨row0, hrow0, rfl⟩
      rw [album_row_fold_art] at hcov2
      cases hp0 : row0.art_path with
      | some q => exact album_row_fold_path_mono _ row0 (by rw [hp0]; rfl)
      | none =>
        obtain ⟨d, hd⟩ := Option.isSome_iff_exists.mp hcov2
        have hmem := album_work_item_mem db row0 d hrow0 hd hp0
        have hsome := hok _ hmem
        obtain ⟨path, hpath⟩ := transform_album_shape fs row0.id d hsome
        have hrmem : ({ id := row0.id, path := path, item_type := "album" }
            : MigrationResult) ∈ (producer_phase fs (migration_work_items db)).1 :=
          List.mem_filterMap.mpr ⟨_, hmem, hpath⟩
        exact album_row_fold_path_some _ row0 _ hrmem rfl rfl
    refine ⟨({ total := (enumerate_tracks db).length + (enumerate_albums db).length,
               processed := s2.tracks_migrated + s2.albums_migrated,
               tracks_migrated := s2.tracks_migrated,
               albums_migrated := s2.albums_migrated,
               errors := s2.errors } : MigrationProgress), s2.db, ?_, ?_⟩
    · unfold migrate_covers_to_files
      dsimp only
      rw [if_neg htot, hext, hrun]
    · intro fuel2
      unfold migrate_covers_to_files
      dsimp only
      rw [htr, hal]
      simp

/-- Witness for C8 at a one-track store with a healthy filesystem and
storage engine: the first run succeeds and the second run reports total 0,
processed 0, no errors. -/
theorem migration_idempotent_witness :
    (∀ i ∈ migration_work_items one_good_track_db,
        (transform_item ok_fs i).isSome) ∧
    ((enumerate_tracks one_good_track_db).length
        + (enumerate_albums one_good_track_db).length < 2) ∧
    ∃ p db1, migrate_covers_to_files ok_fs benign_db_env 2 one_good_track_db
        = MigrateOutcome.ok p db1
      ∧ ∀ fuel2, migrate_covers_to_files ok_fs benign_db_env fuel2 db1
          = MigrateOutcome.ok
              { total := 0, processed := 0, tracks_migrated := 0,
                albums_migrated := 0, errors := [] } db1 :=
  ⟨by decide, by decide,
    migration_idempotent ok_fs benign_db_env one_good_track_db 2
      (by decide) (fun t i => rfl) (fun n => rfl) (fun n => rfl) (by decide)⟩

end Audion
